import Mathlib

set_option maxHeartbeats 1000000

/-! Shallow embedding of the structured-data-to-grid serialization engine of
the spreadsheet library (file src/serializer.rs): the header registry, layout
registration, the header discovery pass and the serde-style data traversal
serializer for worksheets.  Machine integers (RowNum = u32, ColNum = u16) are
modelled as Nat; none of the verified properties depend on wrap-around. -/

/-- Opaque style handle, the `Format` struct; the engine never inspects its
contents, it only threads handles through, so a Nat tag is a faithful model. -/
abbrev Format := Nat

/-- Model of `Format::default()`. -/
def Format.default : Format := 0

/-- The error kinds the serialization engine can surface, from `XlsxError`. -/
inductive XlsxError : Type where
  | RowColumnLimitError : XlsxError
  | MaxStringLengthExceeded : XlsxError
  | ParameterError (msg : String) : XlsxError
deriving DecidableEq

/-- A typed cell payload as accepted by the worksheet write primitive
(`IntoExcelData` instances used by the serializer: booleans, numbers, text). -/
inductive CellData : Type where
  | str (s : String) : CellData
  | num (n : Int) : CellData
  | bool (b : Bool) : CellData
deriving DecidableEq

/-- One registered field of one struct type, from `CustomSerializeHeader`. -/
structure CustomSerializeHeader : Type where
  field_name : String
  header_name : String
  header_format : Option Format
  cell_format : Option Format
  skip : Bool
  hide_headers : Bool
  row : Nat
  col : Nat
deriving DecidableEq

/-- Model of `CustomSerializeHeader::new`. -/
def CustomSerializeHeader.new (name : String) : CustomSerializeHeader :=
  { field_name := name, header_name := name, header_format := none,
    cell_format := none, skip := false, hide_headers := false, row := 0, col := 0 }

/-- Model of `CustomSerializeHeader::new_with_format`. -/
def CustomSerializeHeader.new_with_format (name : String) (format : Format) :
    CustomSerializeHeader :=
  { CustomSerializeHeader.new name with header_format := some format }

/-- The header registry keyed by `(struct_name, field_name)`.  The source uses
`HashMap`; an association list with replacing insert has the same map
semantics (lookup returns the first and only binding of a key). -/
abbrev HeaderRegistry := List ((String × String) × CustomSerializeHeader)

/-- Registry lookup, the model of `HashMap::get` and `HashMap::get_mut`. -/
def lookupHeader : HeaderRegistry → String × String → Option CustomSerializeHeader
  | [], _ => none
  | p :: rest, key => if p.1 = key then some p.2 else lookupHeader rest key

/-- Remove all bindings of a key; used to give insert map semantics. -/
def eraseKey : HeaderRegistry → String × String → HeaderRegistry
  | [], _ => []
  | p :: rest, key =>
    if p.1 = key then eraseKey rest key else p :: eraseKey rest key

/-- Registry insert, the model of `HashMap::insert` (replaces the binding). -/
def insertHeader (hs : HeaderRegistry) (key : String × String)
    (v : CustomSerializeHeader) : HeaderRegistry :=
  (key, v) :: eraseKey hs key

/-- Increment the `row` cursor of the entry bound to `key`
(the in-place `field.row += 1` done through `HashMap::get_mut`). -/
def advanceRow : HeaderRegistry → String × String → HeaderRegistry
  | [], _ => []
  | p :: rest, key =>
    if p.1 = key then (p.1, { p.2 with row := p.2.row + 1 }) :: advanceRow rest key
    else p :: advanceRow rest key

/-- Model of `SerializerState`: the registry plus the transient traversal cursor. -/
structure SerializerState : Type where
  headers : HeaderRegistry
  current_struct : String
  current_field : String
  current_col : Nat
  current_row : Nat
  cell_format : Option Format
deriving DecidableEq

/-- Model of `SerializerState::new`. -/
def SerializerState.new : SerializerState :=
  { headers := [], current_struct := "", current_field := "",
    current_col := 0, current_row := 0, cell_format := none }

/-- The worksheet as the serializer sees it: its serializer state plus the log
of write requests `(row, col, value, style)` committed to the grid sink. -/
structure Worksheet : Type where
  serializer_state : SerializerState
  cells : List (Nat × Nat × CellData × Option Format)
deriving DecidableEq

/-- A fresh worksheet. -/
def Worksheet.new : Worksheet :=
  { serializer_state := SerializerState.new, cells := [] }

/-- Modelled from the spec: the addressable grid row bound enforced by the
worksheet cell storage, which lives outside src/.  The doc comments of the
serializer name `RowColumnLimitError` for coordinates beyond the Excel
worksheet limits of 1048576 rows by 16384 columns. -/
def ROW_MAX : Nat := 1048576

/-- Modelled from the spec: the addressable grid column bound (see ROW_MAX). -/
def COL_MAX : Nat := 16384

/-- Modelled from the spec: the maximum cell text length enforced by the grid
sink; the serializer doc comments name `MaxStringLengthExceeded` for strings
over 32767 characters. -/
def MAX_STRING_LEN : Nat := 32767

/-- Whether a payload exceeds the sink text-length limit. -/
def cellTooLong : CellData → Bool
  | .str s => decide (MAX_STRING_LEN < s.length)
  | _ => false

/-- Modelled from the spec: the grid sink write primitive (the worksheet
`write` and `write_with_format` methods live outside src/).  It enforces grid
bounds and the text-length limit, appends the request to the write log on
success, and reports the two failures distinctly as the engine requires. -/
def Worksheet.write (ws : Worksheet) (row col : Nat) (data : CellData)
    (format : Option Format) : Worksheet × Option XlsxError :=
  if ROW_MAX ≤ row ∨ COL_MAX ≤ col then (ws, some .RowColumnLimitError)
  else if cellTooLong data then (ws, some .MaxStringLengthExceeded)
  else ({ ws with cells := ws.cells ++ [(row, col, data, format)] }, none)

/-- Modelled from the spec: `check_dimensions_only`, the bounds check the cell
storage exposes and registration consults before touching the registry. -/
def check_dimensions_only (row col : Nat) : Bool :=
  decide (row < ROW_MAX) && decide (col < COL_MAX)

/-- Model of `SerializerState::is_known_field`: look up the current struct and field
pair; when found, set the write cursor from the entry and advance the entry
row for the next write.  Returns the flag together with the updated state. -/
def SerializerState.is_known_field (st : SerializerState) :
    Bool × SerializerState :=
  match lookupHeader st.headers (st.current_struct, st.current_field) with
  | none => (false, st)
  | some field =>
    (true,
      { st with
        current_col := field.col
        current_row := field.row
        cell_format := field.cell_format
        headers := advanceRow st.headers (st.current_struct, st.current_field) })

/-- Model of `Worksheet::serialize_to_worksheet_cell`: drop the value when the current
struct and field pair is unknown, otherwise write it at the resolved cell. -/
def serializeToWorksheetCell (ws : Worksheet) (data : CellData) :
    Worksheet × Option XlsxError :=
  match ws.serializer_state.is_known_field with
  | (false, st) => ({ ws with serializer_state := st }, none)
  | (true, st) =>
    let ws1 : Worksheet := { ws with serializer_state := st }
    ws1.write st.current_row st.current_col data st.cell_format

/-- Store the struct type name in the transient state (`serialize_struct`). -/
def setStruct (ws : Worksheet) (name : String) : Worksheet :=
  { ws with serializer_state := { ws.serializer_state with current_struct := name } }

/-- Store the field name in the transient state (`SerializeStruct::serialize_field`). -/
def setField (ws : Worksheet) (key : String) : Worksheet :=
  { ws with serializer_state := { ws.serializer_state with current_field := key } }

/-- Bump the transient row cursor (`SerializeSeq::serialize_element`). -/
def bumpRow (ws : Worksheet) : Worksheet :=
  { ws with serializer_state :=
      { ws.serializer_state with current_row := ws.serializer_state.current_row + 1 } }

mutual
/-- The closed structured-value model: every serde shape the serializer
dispatches on (`Serializer` impl for `&mut Worksheet`). -/
inductive Value : Type where
  | vBool (b : Bool) : Value
  | vInt (n : Int) : Value
  | vStr (s : String) : Value
  | vChar (c : Char) : Value
  | vBytes (bs : List Nat) : Value
  | vNone : Value
  | vSome (v : Value) : Value
  | vUnit : Value
  | vUnitStruct (name : String) : Value
  | vUnitVariant (name variant : String) : Value
  | vNewtypeStruct (name : String) (v : Value) : Value
  | vNewtypeVariant (name variant : String) (v : Value) : Value
  | vSeq (vs : ValueList) : Value
  | vTuple (vs : ValueList) : Value
  | vTupleStruct (name : String) (vs : ValueList) : Value
  | vTupleVariant (name variant : String) (vs : ValueList) : Value
  | vMap (es : EntryList) : Value
  | vStruct (name : String) (fs : FieldList) : Value
  | vStructVariant (name variant : String) (fs : FieldList) : Value

/-- A list of element values (sequence and tuple members). -/
inductive ValueList : Type where
  | nil : ValueList
  | cons (v : Value) (rest : ValueList) : ValueList

/-- A list of named fields (struct and struct-variant bodies). -/
inductive FieldList : Type where
  | nil : FieldList
  | cons (key : String) (v : Value) (rest : FieldList) : FieldList

/-- A list of map entries. -/
inductive EntryList : Type where
  | nil : EntryList
  | cons (k v : Value) (rest : EntryList) : EntryList
end

mutual
/-- The data traversal pass: the `Serializer` impl for `&mut Worksheet`,
dispatching on the shape of the value exactly as the source does. -/
def serializeValue (ws : Worksheet) : Value → Worksheet × Option XlsxError
  | .vBool b => serializeToWorksheetCell ws (.bool b)
  | .vInt n => serializeToWorksheetCell ws (.num n)
  | .vStr s => serializeToWorksheetCell ws (.str s)
  | .vChar c => serializeToWorksheetCell ws (.str c.toString)
  | .vBytes _ => (ws, none)
  | .vNone => serializeToWorksheetCell ws (.str "")
  | .vSome v => serializeValue ws v
  | .vUnit => serializeToWorksheetCell ws (.str "")
  | .vUnitStruct _ => serializeToWorksheetCell ws (.str "")
  | .vUnitVariant _ _ => (ws, none)
  | .vNewtypeStruct _ v => serializeValue ws v
  | .vNewtypeVariant _ _ _ => (ws, none)
  | .vSeq vs => serializeSeqElements ws vs
  | .vTuple vs => serializeTupleElements ws vs
  | .vTupleStruct _ vs => serializeTupleElements ws vs
  | .vTupleVariant _ variant vs =>
    match serializeToWorksheetCell ws (.str variant) with
    | (ws1, some e) => (ws1, some e)
    | (ws1, none) => serializeTupleElements ws1 vs
  | .vMap es => serializeMapEntries ws es
  | .vStruct name fs => serializeStructFields (setStruct ws name) fs
  | .vStructVariant _ variant fs =>
    match serializeToWorksheetCell ws (.str variant) with
    | (ws1, some e) => (ws1, some e)
    | (ws1, none) => serializeStructVariantFields ws1 fs

/-- Model of `SerializeSeq` for `&mut Worksheet`: serialize the element, then bump the
transient `current_row` (even when the element failed), then propagate. -/
def serializeSeqElements (ws : Worksheet) : ValueList → Worksheet × Option XlsxError
  | .nil => (ws, none)
  | .cons v rest =>
    match serializeValue ws v with
    | (ws1, res) =>
      match res with
      | some e => (bumpRow ws1, some e)
      | none => serializeSeqElements (bumpRow ws1) rest

/-- Model of `SerializeTuple`, `SerializeTupleStruct` and `SerializeTupleVariant`
members for `&mut Worksheet`: each member is serialized in order. -/
def serializeTupleElements (ws : Worksheet) : ValueList → Worksheet × Option XlsxError
  | .nil => (ws, none)
  | .cons v rest =>
    match serializeValue ws v with
    | (ws1, some e) => (ws1, some e)
    | (ws1, none) => serializeTupleElements ws1 rest

/-- Model of `SerializeStruct` for `&mut Worksheet`: each field visit stores the field
name in `current_field` and then serializes the field value. -/
def serializeStructFields (ws : Worksheet) : FieldList → Worksheet × Option XlsxError
  | .nil => (ws, none)
  | .cons key v rest =>
    match serializeValue (setField ws key) v with
    | (ws2, some e) => (ws2, some e)
    | (ws2, none) => serializeStructFields ws2 rest

/-- Model of `SerializeStructVariant` for `&mut Worksheet`: each field serializes its
key as a text scalar and then its value (no `current_field` update). -/
def serializeStructVariantFields (ws : Worksheet) : FieldList → Worksheet × Option XlsxError
  | .nil => (ws, none)
  | .cons key v rest =>
    match serializeToWorksheetCell ws (.str key) with
    | (ws1, some e) => (ws1, some e)
    | (ws1, none) =>
      match serializeValue ws1 v with
      | (ws2, some e) => (ws2, some e)
      | (ws2, none) => serializeStructVariantFields ws2 rest

/-- Model of `SerializeMap` for `&mut Worksheet`: keys and values are each traversed
with the ordinary rules. -/
def serializeMapEntries (ws : Worksheet) : EntryList → Worksheet × Option XlsxError
  | .nil => (ws, none)
  | .cons k v rest =>
    match serializeValue ws k with
    | (ws1, some e) => (ws1, some e)
    | (ws1, none) =>
      match serializeValue ws1 v with
      | (ws2, some e) => (ws2, some e)
      | (ws2, none) => serializeMapEntries ws2 rest
end

/-- Model of `Worksheet::serialize_data_structure`. -/
def serialize_data_structure (ws : Worksheet) (v : Value) :
    Worksheet × Option XlsxError :=
  serializeValue ws v

/-- Model of `Worksheet::serialize`, the public entry point of the data traversal. -/
def Worksheet.serialize (ws : Worksheet) (v : Value) :
    Worksheet × Option XlsxError :=
  serialize_data_structure ws v

/-- Replace the registry of a worksheet (plumbing for the state updates the
source performs through `self.serializer_state.headers`). -/
def Worksheet.withHeaders (ws : Worksheet) (hs : HeaderRegistry) : Worksheet :=
  { ws with serializer_state := { ws.serializer_state with headers := hs } }

/-- The registration loop body of `Worksheet::serialize_headers_with_options`:
walk the descriptors with the running `enumerate` offset (which advances for
skipped descriptors too), write the header cell when headers are shown, and
insert the updated descriptor into the registry. -/
def serializeHeadersLoop (row colInitial : Nat) (structName : String)
    (hiddenHeaders : Bool) : Worksheet → Nat → List CustomSerializeHeader →
    Worksheet × Option XlsxError
  | ws, _, [] => (ws, none)
  | ws, colOffset, customHeader :: rest =>
    if customHeader.skip then
      serializeHeadersLoop row colInitial structName hiddenHeaders ws (colOffset + 1) rest
    else
      if hiddenHeaders then
        let ws1 : Worksheet :=
          ws.withHeaders
            (insertHeader ws.serializer_state.headers
              (structName, customHeader.field_name)
              { customHeader with row := row, col := colInitial + colOffset })
        serializeHeadersLoop row colInitial structName hiddenHeaders ws1 (colOffset + 1) rest
      else
        match ws.write row (colInitial + colOffset) (.str customHeader.header_name)
            customHeader.header_format with
        | (ws1, some e) => (ws1, some e)
        | (ws1, none) =>
          let ws2 : Worksheet :=
            ws1.withHeaders
              (insertHeader ws1.serializer_state.headers
                (structName, customHeader.field_name)
                { customHeader with row := row + 1, col := colInitial + colOffset })
          serializeHeadersLoop row colInitial structName hiddenHeaders ws2 (colOffset + 1) rest

/-- Model of `Worksheet::serialize_headers_with_options`: bounds check, empty struct
name check, all-or-nothing hidden-header decision, then the descriptor loop. -/
def serialize_headers_with_options (ws : Worksheet) (row col : Nat)
    (struct_name : String) (custom_headers : List CustomSerializeHeader) :
    Worksheet × Option XlsxError :=
  if !check_dimensions_only row col then (ws, some .RowColumnLimitError)
  else if struct_name = "" then
    (ws, some (.ParameterError "struct_name parameter cannot be blank"))
  else
    let hidden_headers := custom_headers.any (fun h => h.hide_headers)
    serializeHeadersLoop row col struct_name hidden_headers ws 0 custom_headers

/-- Model of `SerializerHeader`: the accumulator of the header discovery pass. -/
structure SerializerHeader : Type where
  struct_name : String
  field_names : List String
deriving DecidableEq

mutual
/-- The header discovery pass: the `Serializer` impl for
`&mut SerializerHeader`.  Strings are recorded as field names, a struct
records its type name and its field keys, tuples recurse into their members,
tuple and struct variants record the variant name, everything else is
ignored (including the contents of options, newtype structs, sequences,
tuple structs, tuple variant members, struct variant fields and maps). -/
def headerSerializeValue (sh : SerializerHeader) : Value → SerializerHeader
  | .vStr s => { sh with field_names := sh.field_names ++ [s] }
  | .vTuple vs => headerSerializeTuple sh vs
  | .vTupleVariant _ variant _ =>
    { sh with field_names := sh.field_names ++ [variant] }
  | .vStruct name fs =>
    headerSerializeStructFields { sh with struct_name := name } fs
  | .vStructVariant _ variant _ =>
    { sh with field_names := sh.field_names ++ [variant] }
  | _ => sh

/-- Model of `SerializeTuple` for `&mut SerializerHeader` recurses into each member. -/
def headerSerializeTuple (sh : SerializerHeader) : ValueList → SerializerHeader
  | .nil => sh
  | .cons v rest => headerSerializeTuple (headerSerializeValue sh v) rest

/-- Model of `SerializeStruct` for `&mut SerializerHeader` records each field key and
ignores the field values. -/
def headerSerializeStructFields (sh : SerializerHeader) : FieldList → SerializerHeader
  | .nil => sh
  | .cons key _ rest =>
    headerSerializeStructFields
      { sh with field_names := sh.field_names ++ [key] } rest
end

/-- Model of `Worksheet::serialize_headers_with_format`: run discovery on the sample
value, turn every discovered field name into a default descriptor carrying
the given header format, and register. -/
def serialize_headers_with_format (ws : Worksheet) (row col : Nat) (v : Value)
    (format : Format) : Worksheet × Option XlsxError :=
  let headers := headerSerializeValue { struct_name := "", field_names := [] } v
  let custom_headers :=
    headers.field_names.map (fun name => CustomSerializeHeader.new_with_format name format)
  serialize_headers_with_options ws row col headers.struct_name custom_headers

/-- Model of `Worksheet::serialize_headers`: the convenience form with a default
header format. -/
def serialize_headers (ws : Worksheet) (row col : Nat) (v : Value) :
    Worksheet × Option XlsxError :=
  serialize_headers_with_format ws row col v Format.default

/-- The values the data traversal treats as a single cell payload: the
scalar shapes together with absent options, units and unit structs, which the
source serializes as the empty string. -/
def scalarData : Value → Option CellData
  | .vBool b => some (.bool b)
  | .vInt n => some (.num n)
  | .vStr s => some (.str s)
  | .vChar c => some (.str c.toString)
  | .vNone => some (.str "")
  | .vUnit => some (.str "")
  | .vUnitStruct _ => some (.str "")
  | _ => none

/-- The field keys of a struct body. -/
def keysOf : FieldList → List String
  | .nil => []
  | .cons key _ rest => key :: keysOf rest

/-- Whether every field value of a struct body is a scalar shape. -/
def fieldsAllScalar : FieldList → Bool
  | .nil => true
  | .cons _ v rest => (scalarData v).isSome && fieldsAllScalar rest

/-- The cell payload of the named field of a struct body, when present and
scalar. -/
def fieldData : FieldList → String → Option CellData
  | .nil, _ => none
  | .cons key v rest, f => if key = f then scalarData v else fieldData rest f

/-- The non-skipped field names of a descriptor list: exactly the keys a
registration call inserts for its struct name. -/
def nonSkippedNames (ds : List CustomSerializeHeader) : List String :=
  (ds.filter (fun h => !h.skip)).map (fun h => h.field_name)

/-- Iterated top-level serialize calls, one record per call. -/
def iterSerialize (S : String) : Worksheet → List FieldList → Worksheet
  | ws, [] => ws
  | ws, fs :: rest => iterSerialize S (serializeValue ws (.vStruct S fs)).1 rest

/-- Whether every call of the iteration returns without error. -/
def iterOk (S : String) : Worksheet → List FieldList → Bool
  | _, [] => true
  | ws, fs :: rest =>
    match serializeValue ws (.vStruct S fs) with
    | (ws1, none) => iterOk S ws1 rest
    | (_, some _) => false

/-- The same records as one top-level sequence value. -/
def structsOf (S : String) : List FieldList → ValueList
  | [] => .nil
  | fs :: rest => .cons (.vStruct S fs) (structsOf S rest)

/-- Counterexample to C1: registering the descriptors `a (skipped), b` at
start column 5 assigns `b` column 6, not the column 5 the claim predicts
(start column plus the number of non-skipped predecessors, here zero): a
skipped descriptor still consumes its column slot and leaves a gap. -/
theorem c1_skip_consumes_slot_cex :
    (lookupHeader
        (serialize_headers_with_options Worksheet.new 0 5 "S"
          [{ CustomSerializeHeader.new "a" with skip := true },
           CustomSerializeHeader.new "b"]).1.serializer_state.headers
        ("S", "b")).map CustomSerializeHeader.col = some 6 ∧
    (lookupHeader
        (serialize_headers_with_options Worksheet.new 0 5 "S"
          [{ CustomSerializeHeader.new "a" with skip := true },
           CustomSerializeHeader.new "b"]).1.serializer_state.headers
        ("S", "b")).map CustomSerializeHeader.col ≠ some 5 := by decide

/-- Counterexample to C2: with field `a` of struct `S` registered on the last
grid row, serializing one record makes the grid write fail with the bounds
error, yet the row counter of the registry entry has still advanced from
1048576 to 1048577 — a failed write does not leave the counter unchanged. -/
theorem c2_row_advances_on_failed_write_cex :
    (serializeValue
        (serialize_headers_with_options Worksheet.new 1048575 0 "S"
          [CustomSerializeHeader.new "a"]).1
        (.vStruct "S" (.cons "a" (.vStr "x") .nil))).2 =
      some .RowColumnLimitError ∧
    (lookupHeader
        (serializeValue
            (serialize_headers_with_options Worksheet.new 1048575 0 "S"
              [CustomSerializeHeader.new "a"]).1
            (.vStruct "S" (.cons "a" (.vStr "x") .nil))).1.serializer_state.headers
        ("S", "a")).map CustomSerializeHeader.row = some 1048577 := by decide

/-- Counterexample to C3: serializing a struct whose registered field `f`
holds a struct-like enum variant `E::V { x: 1 }` writes three cells (the
variant name, the inner field key and the inner field value) and advances the
row counter of `f` from 1 to 4, instead of dropping the variant entirely. -/
theorem c3_struct_variant_writes_cex :
    (serializeValue
        (serialize_headers_with_options Worksheet.new 0 0 "S"
          [CustomSerializeHeader.new "f"]).1
        (.vStruct "S"
          (.cons "f" (.vStructVariant "E" "V" (.cons "x" (.vInt 1) .nil)) .nil))).2 =
      none ∧
    (serializeValue
        (serialize_headers_with_options Worksheet.new 0 0 "S"
          [CustomSerializeHeader.new "f"]).1
        (.vStruct "S"
          (.cons "f" (.vStructVariant "E" "V" (.cons "x" (.vInt 1) .nil)) .nil))).1.cells =
      [(0, 0, .str "f", none), (1, 0, .str "V", none),
       (2, 0, .str "x", none), (3, 0, .num 1, none)] ∧
    (lookupHeader
        (serializeValue
            (serialize_headers_with_options Worksheet.new 0 0 "S"
              [CustomSerializeHeader.new "f"]).1
            (.vStruct "S"
              (.cons "f" (.vStructVariant "E" "V" (.cons "x" (.vInt 1) .nil)) .nil))).1.serializer_state.headers
        ("S", "f")).map CustomSerializeHeader.row = some 4 := by decide

/-- Counterexample to C4: after serializing one record of `S`, the transient
`current_field` still holds `f` at the start of the next call, and a
subsequent top-level bare scalar is written to the cell of `f`, while the same
call on the same worksheet with the transient cursor cleared writes nothing —
the outcome of a serialize call depends on transient state left behind. -/
theorem c4_no_reset_cex :
    (let ws1 : Worksheet :=
      (serializeValue
        (serialize_headers_with_options Worksheet.new 0 0 "S"
          [CustomSerializeHeader.new "f"]).1
        (.vStruct "S" (.cons "f" (.vStr "a") .nil))).1
    let wsR : Worksheet :=
      { ws1 with serializer_state := { ws1.serializer_state with current_struct := "", current_field := "" } }
    ws1.serializer_state.current_field = "f" ∧
    (serializeValue wsR (.vInt 7)).1.cells = wsR.cells ∧
    (serializeValue ws1 (.vInt 7)).1.cells ≠ ws1.cells) := by decide

/-- Counterexample to C6: after registering `S` with fields `a, b` at (0,0)
and re-registering `S` with only `a` at (5,5), the stale entry for `(S, b)`
is still present with its old cell (row 1, column 1) — re-registration does
not replace all prior entries for the struct name. -/
theorem c6_stale_entry_survives_cex :
    (lookupHeader
        (serialize_headers_with_options
          (serialize_headers_with_options Worksheet.new 0 0 "S"
            [CustomSerializeHeader.new "a", CustomSerializeHeader.new "b"]).1
          5 5 "S" [CustomSerializeHeader.new "a"]).1.serializer_state.headers
        ("S", "b")).map (fun h => (h.row, h.col)) = some (1, 1) := by decide

/-- Counterexample to C7: with an out-of-range row, registration with an
empty struct name fails with the bounds error, not the `InvalidLayout`
parameter error the claim names for every row and column. -/
theorem c7_bounds_error_precedes_cex :
    serialize_headers_with_options Worksheet.new 1048576 0 "" [] =
      (Worksheet.new, some .RowColumnLimitError) := by decide

/-- Counterexample to C10: a tuple containing a struct is a sample value
whose top-level shape is not a struct, yet the discovery pass recurses into
tuple members, finds the struct name `Produce`, and header registration
succeeds and inserts a registry entry instead of returning an error. -/
theorem c10_tuple_of_struct_registers_cex :
    (serialize_headers_with_format Worksheet.new 0 0
        (.vTuple (.cons (.vStruct "Produce" (.cons "fruit" (.vStr "x") .nil)) .nil))
        7).2 = none ∧
    (lookupHeader
        (serialize_headers_with_format Worksheet.new 0 0
            (.vTuple (.cons (.vStruct "Produce" (.cons "fruit" (.vStr "x") .nil)) .nil))
            7).1.serializer_state.headers
        ("Produce", "fruit")).isSome = true := by decide

/-! Registry lemmas: the map semantics of lookup, insert and row advance. -/

theorem lookup_erase_ne (hs : HeaderRegistry) (k k' : String × String)
    (hne : k' ≠ k) : lookupHeader (eraseKey hs k) k' = lookupHeader hs k' := by
  have hne2 : ¬ k = k' := fun hh => hne hh.symm
  induction hs with
  | nil => rfl
  | cons p rest ih =>
    by_cases h : p.1 = k
    · have h2 : ¬ p.1 = k' := by
        rw [h]; exact hne2
      simp [eraseKey, lookupHeader, h, h2, hne, hne2, ih]
    · by_cases h2 : p.1 = k'
      · simp [eraseKey, lookupHeader, h, h2, hne, hne2]
      · simp [eraseKey, lookupHeader, h, h2, hne, hne2, ih]

theorem lookup_insert_self (hs : HeaderRegistry) (k : String × String)
    (v : CustomSerializeHeader) : lookupHeader (insertHeader hs k v) k = some v := by
  simp [insertHeader, lookupHeader]

theorem lookup_insert_ne (hs : HeaderRegistry) (k k' : String × String)
    (v : CustomSerializeHeader) (hne : k' ≠ k) :
    lookupHeader (insertHeader hs k v) k' = lookupHeader hs k' := by
  have h : ¬ k = k' := fun hh => hne hh.symm
  simp [insertHeader, lookupHeader, h, lookup_erase_ne hs k k' hne]

theorem lookup_advance_self (hs : HeaderRegistry) (k : String × String) :
    lookupHeader (advanceRow hs k) k =
      (lookupHeader hs k).map (fun e => { e with row := e.row + 1 }) := by
  induction hs with
  | nil => rfl
  | cons p rest ih =>
    by_cases h : p.1 = k
    · simp [advanceRow, lookupHeader, h]
    · simp [advanceRow, lookupHeader, h, ih]

theorem lookup_advance_ne (hs : HeaderRegistry) (k k' : String × String)
    (hne : k' ≠ k) : lookupHeader (advanceRow hs k) k' = lookupHeader hs k' := by
  have hne2 : ¬ k = k' := fun hh => hne hh.symm
  induction hs with
  | nil => rfl
  | cons p rest ih =>
    by_cases h : p.1 = k
    · have h2 : ¬ p.1 = k' := by
        rw [h]; exact hne2
      simp [advanceRow, lookupHeader, h, h2, hne, hne2, ih]
    · by_cases h2 : p.1 = k'
      · simp [advanceRow, lookupHeader, h, h2, hne, hne2]
      · simp [advanceRow, lookupHeader, h, h2, hne, hne2, ih]

/-! Grid sink lemmas. -/

theorem write_serializer_state (ws : Worksheet) (r c : Nat) (d : CellData)
    (f : Option Format) :
    (Worksheet.write ws r c d f).1.serializer_state = ws.serializer_state := by
  unfold Worksheet.write
  split
  · rfl
  · split
    · rfl
    · rfl

theorem write_ok (ws : Worksheet) (r c : Nat) (d : CellData) (f : Option Format)
    (hr : r < ROW_MAX) (hc : c < COL_MAX) (hd : cellTooLong d = false) :
    Worksheet.write ws r c d f =
      ({ ws with cells := ws.cells ++ [(r, c, d, f)] }, none) := by
  simp [Worksheet.write, Nat.not_le.mpr hr, Nat.not_le.mpr hc, hd]

theorem write_succ (ws : Worksheet) (r c : Nat) (d : CellData) (f : Option Format)
    (h : (Worksheet.write ws r c d f).2 = none) :
    (Worksheet.write ws r c d f).1 =
      { ws with cells := ws.cells ++ [(r, c, d, f)] } := by
  by_cases h1 : ROW_MAX ≤ r ∨ COL_MAX ≤ c
  · simp [Worksheet.write, h1] at h
  · by_cases h2 : cellTooLong d = true
    · simp [Worksheet.write, h1, h2] at h
    · simp only [Bool.not_eq_true] at h2
      simp [Worksheet.write, h1, h2]

theorem write_cells_mono (ws : Worksheet) (r c : Nat) (d : CellData)
    (f : Option Format) :
    ∃ l, (Worksheet.write ws r c d f).1.cells = ws.cells ++ l := by
  unfold Worksheet.write
  split
  · exact ⟨[], by simp⟩
  · split
    · exact ⟨[], by simp⟩
    · exact ⟨[(r, c, d, f)], rfl⟩

/-! Scalar cell lemmas: the two outcomes of `serialize_to_worksheet_cell`. -/

/-- The state `is_known_field` produces when the lookup resolves to `e`. -/
def resolvedState (st : SerializerState) (e : CustomSerializeHeader) :
    SerializerState :=
  { st with
    current_col := e.col
    current_row := e.row
    cell_format := e.cell_format
    headers := advanceRow st.headers (st.current_struct, st.current_field) }

theorem stwc_unknown (ws : Worksheet) (d : CellData)
    (h : lookupHeader ws.serializer_state.headers
      (ws.serializer_state.current_struct, ws.serializer_state.current_field) = none) :
    serializeToWorksheetCell ws d = (ws, none) := by
  simp only [serializeToWorksheetCell, SerializerState.is_known_field, h]

theorem stwc_known (ws : Worksheet) (d : CellData) (e : CustomSerializeHeader)
    (h : lookupHeader ws.serializer_state.headers
      (ws.serializer_state.current_struct, ws.serializer_state.current_field) = some e) :
    serializeToWorksheetCell ws d =
      Worksheet.write { ws with serializer_state := resolvedState ws.serializer_state e }
        e.row e.col d e.cell_format := by
  simp only [serializeToWorksheetCell, SerializerState.is_known_field, h, resolvedState]

theorem stwc_known_entry (ws : Worksheet) (d : CellData) (e : CustomSerializeHeader)
    (h : lookupHeader ws.serializer_state.headers
      (ws.serializer_state.current_struct, ws.serializer_state.current_field) = some e) :
    lookupHeader (serializeToWorksheetCell ws d).1.serializer_state.headers
        (ws.serializer_state.current_struct, ws.serializer_state.current_field) =
      some { e with row := e.row + 1 } := by
  rw [stwc_known ws d e h, write_serializer_state]
  simp only [resolvedState]
  rw [lookup_advance_self, h]
  rfl

theorem stwc_preserves_ne (ws : Worksheet) (d : CellData) (key' : String × String)
    (hne : key' ≠ (ws.serializer_state.current_struct, ws.serializer_state.current_field)) :
    lookupHeader (serializeToWorksheetCell ws d).1.serializer_state.headers key' =
      lookupHeader ws.serializer_state.headers key' := by
  cases h : lookupHeader ws.serializer_state.headers
      (ws.serializer_state.current_struct, ws.serializer_state.current_field) with
  | none => rw [stwc_unknown ws d h]
  | some e =>
    rw [stwc_known ws d e h, write_serializer_state]
    simp only [resolvedState]
    exact lookup_advance_ne _ _ _ hne

theorem stwc_current_struct (ws : Worksheet) (d : CellData) :
    (serializeToWorksheetCell ws d).1.serializer_state.current_struct =
      ws.serializer_state.current_struct := by
  cases h : lookupHeader ws.serializer_state.headers
      (ws.serializer_state.current_struct, ws.serializer_state.current_field) with
  | none => rw [stwc_unknown ws d h]
  | some e => rw [stwc_known ws d e h, write_serializer_state]; rfl

theorem stwc_cells_mono (ws : Worksheet) (d : CellData) :
    ∃ l, (serializeToWorksheetCell ws d).1.cells = ws.cells ++ l := by
  cases h : lookupHeader ws.serializer_state.headers
      (ws.serializer_state.current_struct, ws.serializer_state.current_field) with
  | none => rw [stwc_unknown ws d h]; exact ⟨[], by simp⟩
  | some e => rw [stwc_known ws d e h]; exact write_cells_mono _ _ _ _ _

theorem stwc_ok_cells (ws : Worksheet) (d : CellData) (e : CustomSerializeHeader)
    (h : lookupHeader ws.serializer_state.headers
      (ws.serializer_state.current_struct, ws.serializer_state.current_field) = some e)
    (hok : (serializeToWorksheetCell ws d).2 = none) :
    (serializeToWorksheetCell ws d).1.cells =
      ws.cells ++ [(e.row, e.col, d, e.cell_format)] := by
  rw [stwc_known ws d e h] at hok ⊢
  rw [write_succ _ _ _ _ _ hok]

/-! Registration lemmas. -/

theorem nonSkippedNames_cons (h : CustomSerializeHeader)
    (rest : List CustomSerializeHeader) :
    nonSkippedNames (h :: rest) =
      if h.skip then nonSkippedNames rest else h.field_name :: nonSkippedNames rest := by
  by_cases hs : h.skip <;> simp [nonSkippedNames, List.filter_cons, hs]

theorem mem_nonSkippedNames (ds : List CustomSerializeHeader) (f : String)
    (h : f ∈ nonSkippedNames ds) : f ∈ ds.map (fun h => h.field_name) := by
  rcases List.mem_map.mp h with ⟨x, hx, he⟩
  exact List.mem_map.mpr ⟨x, List.mem_of_mem_filter hx, he⟩

theorem get_name_mem (ds : List CustomSerializeHeader) (i : Nat) (hi : i < ds.length) :
    (ds.get ⟨i, hi⟩).field_name ∈ ds.map (fun h => h.field_name) :=
  List.mem_map.mpr ⟨ds.get ⟨i, hi⟩, List.get_mem ds i hi, rfl⟩

theorem skipped_name_not_inserted (ds : List CustomSerializeHeader) (i : Nat)
    (hi : i < ds.length) (hnd : (ds.map (fun h => h.field_name)).Nodup)
    (hsk : (ds.get ⟨i, hi⟩).skip = true) :
    (ds.get ⟨i, hi⟩).field_name ∉ nonSkippedNames ds := by
  induction ds generalizing i with
  | nil => exact absurd hi (by simp)
  | cons hd rest ih =>
    rw [List.map_cons, List.nodup_cons] at hnd
    cases i with
    | zero =>
      simp only [List.get] at hsk ⊢
      rw [nonSkippedNames_cons, hsk]
      simp only [if_pos]
      intro hm
      exact hnd.1 (mem_nonSkippedNames rest _ hm)
    | succ j =>
      have hj : j < rest.length := Nat.lt_of_succ_lt_succ hi
      simp only [List.get] at hsk ⊢
      rw [nonSkippedNames_cons]
      by_cases hh : hd.skip
      · rw [if_pos hh]
        exact ih j hj hnd.2 hsk
      · rw [if_neg hh]
        intro hm
        rcases List.mem_cons.mp hm with hm | hm
        · exact hnd.1 (hm ▸ get_name_mem rest j hj)
        · exact ih j hj hnd.2 hsk hm

theorem loop_cons_skip (row colInitial : Nat) (S : String) (hidden : Bool)
    (ws : Worksheet) (off : Nat) (hd : CustomSerializeHeader)
    (rest : List CustomSerializeHeader) (hsk : hd.skip = true) :
    serializeHeadersLoop row colInitial S hidden ws off (hd :: rest) =
      serializeHeadersLoop row colInitial S hidden ws (off + 1) rest := by
  simp only [serializeHeadersLoop, hsk, if_true]

theorem loop_cons_hidden (row colInitial : Nat) (S : String) (ws : Worksheet)
    (off : Nat) (hd : CustomSerializeHeader) (rest : List CustomSerializeHeader)
    (hsk : hd.skip = false) :
    serializeHeadersLoop row colInitial S true ws off (hd :: rest) =
      serializeHeadersLoop row colInitial S true
        (ws.withHeaders
          (insertHeader ws.serializer_state.headers (S, hd.field_name)
            { hd with row := row, col := colInitial + off }))
        (off + 1) rest := by
  simp only [serializeHeadersLoop, hsk, if_false, if_true, Bool.false_eq_true]

theorem loop_cons_shown_err (row colInitial : Nat) (S : String) (ws ws1 : Worksheet)
    (off : Nat) (hd : CustomSerializeHeader) (rest : List CustomSerializeHeader)
    (e : XlsxError) (hsk : hd.skip = false)
    (hw : ws.write row (colInitial + off) (.str hd.header_name) hd.header_format =
      (ws1, some e)) :
    serializeHeadersLoop row colInitial S false ws off (hd :: rest) = (ws1, some e) := by
  simp only [serializeHeadersLoop, hsk, if_false, hw, Bool.false_eq_true]

theorem loop_cons_shown_ok (row colInitial : Nat) (S : String) (ws ws1 : Worksheet)
    (off : Nat) (hd : CustomSerializeHeader) (rest : List CustomSerializeHeader)
    (hsk : hd.skip = false)
    (hw : ws.write row (colInitial + off) (.str hd.header_name) hd.header_format =
      (ws1, none)) :
    serializeHeadersLoop row colInitial S false ws off (hd :: rest) =
      serializeHeadersLoop row colInitial S false
        (ws1.withHeaders
          (insertHeader ws1.serializer_state.headers (S, hd.field_name)
            { hd with row := row + 1, col := colInitial + off }))
        (off + 1) rest := by
  simp only [serializeHeadersLoop, hsk, if_false, hw, Bool.false_eq_true]

theorem loop_preserves (row colInitial : Nat) (S : String) (hidden : Bool)
    (ds : List CustomSerializeHeader) :
    ∀ (ws : Worksheet) (off : Nat) (n f : String),
    (n ≠ S ∨ f ∉ nonSkippedNames ds) →
    lookupHeader
        (serializeHeadersLoop row colInitial S hidden ws off ds).1.serializer_state.headers
        (n, f) =
      lookupHeader ws.serializer_state.headers (n, f) := by
  induction ds with
  | nil => intro ws off n f _; rfl
  | cons hd rest ih =>
    intro ws off n f h
    have hrest : n ≠ S ∨ f ∉ nonSkippedNames rest := by
      rcases h with h | h
      · exact Or.inl h
      · refine Or.inr fun hm => h ?_
        rw [nonSkippedNames_cons]
        by_cases hs : hd.skip
        · rw [if_pos hs]; exact hm
        · rw [if_neg hs]; exact List.mem_cons_of_mem _ hm
    by_cases hsk : hd.skip
    · rw [loop_cons_skip row colInitial S hidden ws off hd rest hsk]
      exact ih ws (off + 1) n f hrest
    · rw [Bool.not_eq_true] at hsk
      have hkey : (n, f) ≠ (S, hd.field_name) := by
        intro he
        rw [Prod.mk.injEq] at he
        rcases h with h | h
        · exact h he.1
        · apply h
          rw [nonSkippedNames_cons, if_neg (by rw [hsk]; exact Bool.false_ne_true),
            he.2]
          exact List.mem_cons_self _ _
      cases hidden with
      | true =>
        rw [loop_cons_hidden row colInitial S ws off hd rest hsk]
        rw [ih _ (off + 1) n f hrest]
        simp only [Worksheet.withHeaders]
        exact lookup_insert_ne _ _ _ _ hkey
      | false =>
        rcases hw : ws.write row (colInitial + off) (.str hd.header_name)
            hd.header_format with ⟨ws1, res⟩
        have hst := write_serializer_state ws row (colInitial + off)
          (.str hd.header_name) hd.header_format
        rw [hw] at hst
        cases res with
        | some e =>
          rw [loop_cons_shown_err row colInitial S ws ws1 off hd rest e hsk hw]
          rw [hst]
        | none =>
          rw [loop_cons_shown_ok row colInitial S ws ws1 off hd rest hsk hw]
          rw [ih _ (off + 1) n f hrest]
          simp only [Worksheet.withHeaders]
          rw [lookup_insert_ne _ _ _ _ hkey, hst]

theorem loop_found (row colInitial : Nat) (S : String) (hidden : Bool)
    (ds : List CustomSerializeHeader) :
    ∀ (ws : Worksheet) (off i : Nat) (hi : i < ds.length),
    (ds.map (fun h => h.field_name)).Nodup →
    (ds.get ⟨i, hi⟩).skip = false →
    (serializeHeadersLoop row colInitial S hidden ws off ds).2 = none →
    lookupHeader
        (serializeHeadersLoop row colInitial S hidden ws off ds).1.serializer_state.headers
        (S, (ds.get ⟨i, hi⟩).field_name) =
      some { ds.get ⟨i, hi⟩ with
              row := row + (if hidden then 0 else 1), col := colInitial + off + i } := by
  induction ds with
  | nil => intro ws off i hi; exact absurd hi (by simp)
  | cons hd rest ih =>
    intro ws off i hi hnd hskip hok
    rw [List.map_cons, List.nodup_cons] at hnd
    cases i with
    | zero =>
      simp only [List.get] at hskip ⊢
      have hnot : hd.field_name ∉ nonSkippedNames rest := fun hm =>
        hnd.1 (mem_nonSkippedNames rest _ hm)
      cases hidden with
      | true =>
        rw [loop_cons_hidden row colInitial S ws off hd rest hskip]
        rw [loop_preserves row colInitial S true rest _ (off + 1) S hd.field_name
          (Or.inr hnot)]
        simp only [Worksheet.withHeaders]
        rw [lookup_insert_self]
        simp
      | false =>
        rcases hw : ws.write row (colInitial + off) (.str hd.header_name)
            hd.header_format with ⟨ws1, res⟩
        cases res with
        | some e =>
          rw [loop_cons_shown_err row colInitial S ws ws1 off hd rest e hskip hw] at hok
          exact absurd hok (by simp)
        | none =>
          rw [loop_cons_shown_ok row colInitial S ws ws1 off hd rest hskip hw]
          rw [loop_preserves row colInitial S false rest _ (off + 1) S hd.field_name
            (Or.inr hnot)]
          simp only [Worksheet.withHeaders]
          rw [lookup_insert_self]
          simp
    | succ j =>
      have hj : j < rest.length := Nat.lt_of_succ_lt_succ hi
      simp only [List.get] at hskip ⊢
      have harith : colInitial + (off + 1) + j = colInitial + off + (j + 1) := by omega
      by_cases hsk : hd.skip
      · rw [loop_cons_skip row colInitial S hidden ws off hd rest hsk] at hok ⊢
        rw [ih ws (off + 1) j hj hnd.2 hskip hok, harith]
      · rw [Bool.not_eq_true] at hsk
        cases hidden with
        | true =>
          rw [loop_cons_hidden row colInitial S ws off hd rest hsk] at hok ⊢
          rw [ih _ (off + 1) j hj hnd.2 hskip hok, harith]
        | false =>
          rcases hw : ws.write row (colInitial + off) (.str hd.header_name)
              hd.header_format with ⟨ws1, res⟩
          cases res with
          | some e =>
            rw [loop_cons_shown_err row colInitial S ws ws1 off hd rest e hsk hw] at hok
            exact absurd hok (by simp)
          | none =>
            rw [loop_cons_shown_ok row colInitial S ws ws1 off hd rest hsk hw] at hok ⊢
            rw [ih _ (off + 1) j hj hnd.2 hskip hok, harith]

theorem reg_ok_unfold (ws : Worksheet) (r c : Nat) (S : String)
    (ds : List CustomSerializeHeader) (h1 : check_dimensions_only r c = true)
    (h2 : ¬ S = "") :
    serialize_headers_with_options ws r c S ds =
      serializeHeadersLoop r c S (ds.any fun h => h.hide_headers) ws 0 ds := by
  simp [serialize_headers_with_options, h1, h2]

theorem reg_preserves (ws : Worksheet) (r c : Nat) (S : String)
    (ds : List CustomSerializeHeader) (n f : String)
    (h : n ≠ S ∨ f ∉ nonSkippedNames ds) :
    lookupHeader
        (serialize_headers_with_options ws r c S ds).1.serializer_state.headers (n, f) =
      lookupHeader ws.serializer_state.headers (n, f) := by
  by_cases h1 : check_dimensions_only r c
  · by_cases h2 : S = ""
    · simp [serialize_headers_with_options, h1, h2]
    · rw [reg_ok_unfold ws r c S ds h1 h2]
      exact loop_preserves r c S _ ds ws 0 n f h
  · rw [Bool.not_eq_true] at h1
    simp [serialize_headers_with_options, h1]

theorem reg_found (ws : Worksheet) (r c : Nat) (S : String)
    (ds : List CustomSerializeHeader) (i : Nat) (hi : i < ds.length)
    (hnd : (ds.map (fun h => h.field_name)).Nodup)
    (hskip : (ds.get ⟨i, hi⟩).skip = false)
    (hok : (serialize_headers_with_options ws r c S ds).2 = none) :
    lookupHeader
        (serialize_headers_with_options ws r c S ds).1.serializer_state.headers
        (S, (ds.get ⟨i, hi⟩).field_name) =
      some { ds.get ⟨i, hi⟩ with
              row := r + (if ds.any (fun h => h.hide_headers) then 0 else 1),
              col := c + i } := by
  have h1 : check_dimensions_only r c = true := by
    by_contra hcon
    rw [Bool.not_eq_true] at hcon
    simp [serialize_headers_with_options, hcon] at hok
  have h2 : ¬ S = "" := by
    intro hcon
    simp [serialize_headers_with_options, h1, hcon] at hok
  rw [reg_ok_unfold ws r c S ds h1 h2] at hok ⊢
  have hfound := loop_found r c S (ds.any fun h => h.hide_headers) ds ws 0 i hi
    hnd hskip hok
  rw [hfound]
  simp

/-! Traversal lemmas. -/

theorem serializeValue_scalar (ws : Worksheet) (v : Value) (d : CellData)
    (h : scalarData v = some d) :
    serializeValue ws v = serializeToWorksheetCell ws d := by
  cases v <;> simp_all [scalarData, serializeValue]

mutual
theorem serializeValue_cells_mono (ws : Worksheet) (v : Value) :
    ∃ l, (serializeValue ws v).1.cells = ws.cells ++ l := by
  cases v with
  | vBool b => exact stwc_cells_mono ws _
  | vInt n => exact stwc_cells_mono ws _
  | vStr s => exact stwc_cells_mono ws _
  | vChar c => exact stwc_cells_mono ws _
  | vBytes bs => exact ⟨[], by simp [serializeValue]⟩
  | vNone => exact stwc_cells_mono ws _
  | vSome v =>
    simp only [serializeValue]
    exact serializeValue_cells_mono ws v
  | vUnit => exact stwc_cells_mono ws _
  | vUnitStruct n => exact stwc_cells_mono ws _
  | vUnitVariant n v => exact ⟨[], by simp [serializeValue]⟩
  | vNewtypeStruct n v =>
    simp only [serializeValue]
    exact serializeValue_cells_mono ws v
  | vNewtypeVariant n v x => exact ⟨[], by simp [serializeValue]⟩
  | vSeq vs =>
    simp only [serializeValue]
    exact serializeSeqElements_cells_mono ws vs
  | vTuple vs =>
    simp only [serializeValue]
    exact serializeTupleElements_cells_mono ws vs
  | vTupleStruct n vs =>
    simp only [serializeValue]
    exact serializeTupleElements_cells_mono ws vs
  | vTupleVariant n variant vs =>
    simp only [serializeValue]
    rcases hw : serializeToWorksheetCell ws (.str variant) with ⟨ws1, res⟩
    have h1 : ∃ l, ws1.cells = ws.cells ++ l := by
      have := stwc_cells_mono ws (.str variant)
      rwa [hw] at this
    rcases h1 with ⟨l1, h1⟩
    cases res with
    | some e => exact ⟨l1, h1⟩
    | none =>
      rcases serializeTupleElements_cells_mono ws1 vs with ⟨l2, h2⟩
      exact ⟨l1 ++ l2, by rw [h2, h1, List.append_assoc]⟩
  | vMap es =>
    simp only [serializeValue]
    exact serializeMapEntries_cells_mono ws es
  | vStruct n fs =>
    simp only [serializeValue]
    exact serializeStructFields_cells_mono (setStruct ws n) fs
  | vStructVariant n variant fs =>
    simp only [serializeValue]
    rcases hw : serializeToWorksheetCell ws (.str variant) with ⟨ws1, res⟩
    have h1 : ∃ l, ws1.cells = ws.cells ++ l := by
      have := stwc_cells_mono ws (.str variant)
      rwa [hw] at this
    rcases h1 with ⟨l1, h1⟩
    cases res with
    | some e => exact ⟨l1, h1⟩
    | none =>
      rcases serializeStructVariantFields_cells_mono ws1 fs with ⟨l2, h2⟩
      exact ⟨l1 ++ l2, by rw [h2, h1, List.append_assoc]⟩

theorem serializeSeqElements_cells_mono (ws : Worksheet) (vs : ValueList) :
    ∃ l, (serializeSeqElements ws vs).1.cells = ws.cells ++ l := by
  cases vs with
  | nil => exact ⟨[], by simp [serializeSeqElements]⟩
  | cons v rest =>
    simp only [serializeSeqElements]
    rcases hw : serializeValue ws v with ⟨ws1, res⟩
    have h1 : ∃ l, ws1.cells = ws.cells ++ l := by
      have := serializeValue_cells_mono ws v
      rwa [hw] at this
    rcases h1 with ⟨l1, h1⟩
    cases res with
    | some e => exact ⟨l1, h1⟩
    | none =>
      rcases serializeSeqElements_cells_mono (bumpRow ws1) rest with ⟨l2, h2⟩
      refine ⟨l1 ++ l2, ?_⟩
      show (serializeSeqElements (bumpRow ws1) rest).1.cells = ws.cells ++ (l1 ++ l2)
      rw [h2]
      show ws1.cells ++ l2 = ws.cells ++ (l1 ++ l2)
      rw [h1, List.append_assoc]

theorem serializeTupleElements_cells_mono (ws : Worksheet) (vs : ValueList) :
    ∃ l, (serializeTupleElements ws vs).1.cells = ws.cells ++ l := by
  cases vs with
  | nil => exact ⟨[], by simp [serializeTupleElements]⟩
  | cons v rest =>
    simp only [serializeTupleElements]
    rcases hw : serializeValue ws v with ⟨ws1, res⟩
    have h1 : ∃ l, ws1.cells = ws.cells ++ l := by
      have := serializeValue_cells_mono ws v
      rwa [hw] at this
    rcases h1 with ⟨l1, h1⟩
    cases res with
    | some e => exact ⟨l1, h1⟩
    | none =>
      rcases serializeTupleElements_cells_mono ws1 rest with ⟨l2, h2⟩
      exact ⟨l1 ++ l2, by rw [h2, h1, List.append_assoc]⟩

theorem serializeStructFields_cells_mono (ws : Worksheet) (fs : FieldList) :
    ∃ l, (serializeStructFields ws fs).1.cells = ws.cells ++ l := by
  cases fs with
  | nil => exact ⟨[], by simp [serializeStructFields]⟩
  | cons key v rest =>
    simp only [serializeStructFields]
    rcases hw : serializeValue (setField ws key) v with ⟨ws1, res⟩
    have h1 : ∃ l, ws1.cells = ws.cells ++ l := by
      have := serializeValue_cells_mono (setField ws key) v
      rwa [hw] at this
    rcases h1 with ⟨l1, h1⟩
    cases res with
    | some e => exact ⟨l1, h1⟩
    | none =>
      rcases serializeStructFields_cells_mono ws1 rest with ⟨l2, h2⟩
      refine ⟨l1 ++ l2, ?_⟩
      show (serializeStructFields ws1 rest).1.cells = ws.cells ++ (l1 ++ l2)
      rw [h2, h1, List.append_assoc]

theorem serializeStructVariantFields_cells_mono (ws : Worksheet) (fs : FieldList) :
    ∃ l, (serializeStructVariantFields ws fs).1.cells = ws.cells ++ l := by
  cases fs with
  | nil => exact ⟨[], by simp [serializeStructVariantFields]⟩
  | cons key v rest =>
    simp only [serializeStructVariantFields]
    rcases hw : serializeToWorksheetCell ws (.str key) with ⟨ws1, res⟩
    have h1 : ∃ l, ws1.cells = ws.cells ++ l := by
      have := stwc_cells_mono ws (.str key)
      rwa [hw] at this
    rcases h1 with ⟨l1, h1⟩
    cases res with
    | some e => exact ⟨l1, h1⟩
    | none =>
      show ∃ l, (match serializeValue ws1 v with
          | (ws2, some e) => (ws2, some e)
          | (ws2, none) => serializeStructVariantFields ws2 rest).1.cells =
        ws.cells ++ l
      rcases hw2 : serializeValue ws1 v with ⟨ws2, res2⟩
      have h2 : ∃ l, ws2.cells = ws1.cells ++ l := by
        have := serializeValue_cells_mono ws1 v
        rwa [hw2] at this
      rcases h2 with ⟨l2, h2⟩
      cases res2 with
      | some e =>
        refine ⟨l1 ++ l2, ?_⟩
        show ws2.cells = ws.cells ++ (l1 ++ l2)
        rw [h2, h1, List.append_assoc]
      | none =>
        rcases serializeStructVariantFields_cells_mono ws2 rest with ⟨l3, h3⟩
        refine ⟨l1 ++ (l2 ++ l3), ?_⟩
        show (serializeStructVariantFields ws2 rest).1.cells = ws.cells ++ (l1 ++ (l2 ++ l3))
        rw [h3, h2, h1]
        simp [List.append_assoc]

theorem serializeMapEntries_cells_mono (ws : Worksheet) (es : EntryList) :
    ∃ l, (serializeMapEntries ws es).1.cells = ws.cells ++ l := by
  cases es with
  | nil => exact ⟨[], by simp [serializeMapEntries]⟩
  | cons k v rest =>
    simp only [serializeMapEntries]
    rcases hw : serializeValue ws k with ⟨ws1, res⟩
    have h1 : ∃ l, ws1.cells = ws.cells ++ l := by
      have := serializeValue_cells_mono ws k
      rwa [hw] at this
    rcases h1 with ⟨l1, h1⟩
    cases res with
    | some e => exact ⟨l1, h1⟩
    | none =>
      show ∃ l, (match serializeValue ws1 v with
          | (ws2, some e) => (ws2, some e)
          | (ws2, none) => serializeMapEntries ws2 rest).1.cells =
        ws.cells ++ l
      rcases hw2 : serializeValue ws1 v with ⟨ws2, res2⟩
      have h2 : ∃ l, ws2.cells = ws1.cells ++ l := by
        have := serializeValue_cells_mono ws1 v
        rwa [hw2] at this
      rcases h2 with ⟨l2, h2⟩
      cases res2 with
      | some e =>
        refine ⟨l1 ++ l2, ?_⟩
        show ws2.cells = ws.cells ++ (l1 ++ l2)
        rw [h2, h1, List.append_assoc]
      | none =>
        rcases serializeMapEntries_cells_mono ws2 rest with ⟨l3, h3⟩
        refine ⟨l1 ++ (l2 ++ l3), ?_⟩
        show (serializeMapEntries ws2 rest).1.cells = ws.cells ++ (l1 ++ (l2 ++ l3))
        rw [h3, h2, h1]
        simp [List.append_assoc]
end

theorem setField_state (ws : Worksheet) (key : String) :
    (setField ws key).serializer_state.current_struct = ws.serializer_state.current_struct ∧
    (setField ws key).serializer_state.current_field = key ∧
    (setField ws key).serializer_state.headers = ws.serializer_state.headers ∧
    (setField ws key).cells = ws.cells :=
  ⟨rfl, rfl, rfl, rfl⟩

theorem bumpRow_state (ws : Worksheet) :
    (bumpRow ws).serializer_state.current_struct = ws.serializer_state.current_struct ∧
    (bumpRow ws).serializer_state.headers = ws.serializer_state.headers ∧
    (bumpRow ws).cells = ws.cells :=
  ⟨rfl, rfl, rfl⟩

theorem structFields_current_struct (fs : FieldList) :
    ∀ ws : Worksheet, fieldsAllScalar fs = true →
    (serializeStructFields ws fs).1.serializer_state.current_struct =
      ws.serializer_state.current_struct := by
  cases fs with
  | nil => intro ws _; rfl
  | cons key v rest =>
    intro ws hsc
    simp only [fieldsAllScalar, Bool.and_eq_true] at hsc
    rcases Option.isSome_iff_exists.mp hsc.1 with ⟨dv, hdv⟩
    simp only [serializeStructFields]
    rw [serializeValue_scalar _ v dv hdv]
    rcases hw : serializeToWorksheetCell (setField ws key) dv with ⟨ws2, res⟩
    have hcs2 : ws2.serializer_state.current_struct =
        ws.serializer_state.current_struct := by
      have := stwc_current_struct (setField ws key) dv
      rw [hw] at this
      exact this
    cases res with
    | some e => exact hcs2
    | none =>
      show (serializeStructFields ws2 rest).1.serializer_state.current_struct = _
      rw [structFields_current_struct rest ws2 hsc.2, hcs2]

theorem structFields_preserves (f : String) (fs : FieldList) :
    ∀ (ws : Worksheet) (n : String),
    fieldsAllScalar fs = true →
    (n ≠ ws.serializer_state.current_struct ∨ f ∉ keysOf fs) →
    lookupHeader (serializeStructFields ws fs).1.serializer_state.headers (n, f) =
      lookupHeader ws.serializer_state.headers (n, f) := by
  cases fs with
  | nil => intro ws n _ _; rfl
  | cons key v rest =>
    intro ws n hsc hcond
    simp only [fieldsAllScalar, Bool.and_eq_true] at hsc
    rcases Option.isSome_iff_exists.mp hsc.1 with ⟨dv, hdv⟩
    have hkey : (n, f) ≠ ((setField ws key).serializer_state.current_struct,
        (setField ws key).serializer_state.current_field) := by
      intro he
      rw [Prod.mk.injEq] at he
      rcases hcond with h | h
      · exact h he.1
      · exact h (by rw [he.2]; exact List.mem_cons_self _ _)
    simp only [serializeStructFields]
    rw [serializeValue_scalar _ v dv hdv]
    rcases hw : serializeToWorksheetCell (setField ws key) dv with ⟨ws2, res⟩
    have hpres : lookupHeader ws2.serializer_state.headers (n, f) =
        lookupHeader ws.serializer_state.headers (n, f) := by
      have := stwc_preserves_ne (setField ws key) dv (n, f) hkey
      rw [hw] at this
      exact this
    have hcs2 : ws2.serializer_state.current_struct =
        ws.serializer_state.current_struct := by
      have := stwc_current_struct (setField ws key) dv
      rw [hw] at this
      exact this
    cases res with
    | some e => exact hpres
    | none =>
      show lookupHeader (serializeStructFields ws2 rest).1.serializer_state.headers
        (n, f) = _
      rw [structFields_preserves f rest ws2 n hsc.2, hpres]
      rcases hcond with h | h
      · exact Or.inl (by rw [hcs2]; exact h)
      · exact Or.inr fun hm => h (List.mem_cons_of_mem _ hm)

theorem structFields_tracks (S f : String) (fs : FieldList) :
    ∀ (ws : Worksheet) (e : CustomSerializeHeader) (d : CellData),
    ws.serializer_state.current_struct = S →
    fieldsAllScalar fs = true →
    (keysOf fs).Nodup →
    lookupHeader ws.serializer_state.headers (S, f) = some e →
    fieldData fs f = some d →
    (serializeStructFields ws fs).2 = none →
    (e.row, e.col, d, e.cell_format) ∈ (serializeStructFields ws fs).1.cells ∧
    lookupHeader (serializeStructFields ws fs).1.serializer_state.headers (S, f) =
      some { e with row := e.row + 1 } := by
  cases fs with
  | nil => intro ws e d _ _ _ _ hd; exact absurd hd (by simp [fieldData])
  | cons key v rest =>
    intro ws e d hcs hsc hnd hlk hd hok
    simp only [fieldsAllScalar, Bool.and_eq_true] at hsc
    rcases Option.isSome_iff_exists.mp hsc.1 with ⟨dv, hdv⟩
    simp only [keysOf, List.nodup_cons] at hnd
    simp only [serializeStructFields] at hok ⊢
    rw [serializeValue_scalar _ v dv hdv] at hok ⊢
    by_cases hk : key = f
    · have hdataeq : dv = d := by
        simp only [fieldData, hk, if_pos rfl] at hd
        rw [hdv] at hd
        exact Option.some.injEq _ _ ▸ hd
      subst hdataeq
      have hlk1 : lookupHeader (setField ws key).serializer_state.headers
          ((setField ws key).serializer_state.current_struct,
           (setField ws key).serializer_state.current_field) = some e := by
        show lookupHeader ws.serializer_state.headers
          (ws.serializer_state.current_struct, key) = some e
        rw [hcs, hk]
        exact hlk
      rcases hw : serializeToWorksheetCell (setField ws key) dv with ⟨ws2, res⟩
      rw [hw] at hok
      have hentry : lookupHeader ws2.serializer_state.headers (S, f) =
          some { e with row := e.row + 1 } := by
        have := stwc_known_entry (setField ws key) dv e hlk1
        rw [hw] at this
        show lookupHeader ws2.serializer_state.headers (S, f) = _
        have hkeyeq : ((setField ws key).serializer_state.current_struct,
            (setField ws key).serializer_state.current_field) = (S, f) := by
          show (ws.serializer_state.current_struct, key) = (S, f)
          rw [hcs, hk]
        rw [hkeyeq] at this
        exact this
      have hcs2 : ws2.serializer_state.current_struct = S := by
        have := stwc_current_struct (setField ws key) dv
        rw [hw] at this
        rw [show (setField ws key).serializer_state.current_struct =
          ws.serializer_state.current_struct from rfl, hcs] at this
        exact this
      cases res with
      | some err => exact absurd hok (by simp)
      | none =>
        have hcells : ws2.cells = ws.cells ++ [(e.row, e.col, dv, e.cell_format)] := by
          have h2 : (serializeToWorksheetCell (setField ws key) dv).2 = none := by
            rw [hw]
          have := stwc_ok_cells (setField ws key) dv e hlk1 h2
          rw [hw] at this
          exact this
        have hok2 : (serializeStructFields ws2 rest).2 = none := hok
        constructor
        · show (e.row, e.col, dv, e.cell_format) ∈ (serializeStructFields ws2 rest).1.cells
          rcases serializeStructFields_cells_mono ws2 rest with ⟨l, hl⟩
          rw [hl, hcells]
          simp
        · show lookupHeader (serializeStructFields ws2 rest).1.serializer_state.headers
            (S, f) = some { e with row := e.row + 1 }
          rw [structFields_preserves f rest ws2 S hsc.2
            (Or.inr (by rw [← hk]; exact hnd.1)), hentry]
    · have hd2 : fieldData rest f = some d := by
        simp only [fieldData, hk, if_neg hk] at hd
        exact hd
      have hkey : (S, f) ≠ ((setField ws key).serializer_state.current_struct,
          (setField ws key).serializer_state.current_field) := by
        show (S, f) ≠ (ws.serializer_state.current_struct, key)
        intro he
        rw [Prod.mk.injEq] at he
        exact hk (he.2.symm)
      rcases hw : serializeToWorksheetCell (setField ws key) dv with ⟨ws2, res⟩
      rw [hw] at hok
      have hpres : lookupHeader ws2.serializer_state.headers (S, f) = some e := by
        have := stwc_preserves_ne (setField ws key) dv (S, f) hkey
        rw [hw] at this
        rw [this]
        exact hlk
      have hcs2 : ws2.serializer_state.current_struct = S := by
        have := stwc_current_struct (setField ws key) dv
        rw [hw] at this
        rw [show (setField ws key).serializer_state.current_struct =
          ws.serializer_state.current_struct from rfl, hcs] at this
        exact this
      cases res with
      | some err => exact absurd hok (by simp)
      | none =>
        exact structFields_tracks S f rest ws2 e d hcs2 hsc.2 hnd.2 hpres hd2 hok

theorem structCall_tracks (S f : String) (fs : FieldList) (ws : Worksheet)
    (e : CustomSerializeHeader) (d : CellData)
    (hsc : fieldsAllScalar fs = true) (hnd : (keysOf fs).Nodup)
    (hlk : lookupHeader ws.serializer_state.headers (S, f) = some e)
    (hd : fieldData fs f = some d)
    (hok : (serializeValue ws (.vStruct S fs)).2 = none) :
    (e.row, e.col, d, e.cell_format) ∈ (serializeValue ws (.vStruct S fs)).1.cells ∧
    lookupHeader (serializeValue ws (.vStruct S fs)).1.serializer_state.headers (S, f) =
      some { e with row := e.row + 1 } := by
  simp only [serializeValue] at hok ⊢
  exact structFields_tracks S f fs (setStruct ws S) e d rfl hsc hnd hlk hd hok

theorem iter_cells_mono (S : String) (rs : List FieldList) :
    ∀ ws : Worksheet, ∃ l, (iterSerialize S ws rs).cells = ws.cells ++ l := by
  induction rs with
  | nil => exact fun ws => ⟨[], by simp [iterSerialize]⟩
  | cons fs rest ih =>
    intro ws
    simp only [iterSerialize]
    rcases serializeValue_cells_mono ws (.vStruct S fs) with ⟨l1, h1⟩
    rcases ih (serializeValue ws (.vStruct S fs)).1 with ⟨l2, h2⟩
    exact ⟨l1 ++ l2, by rw [h2, h1, List.append_assoc]⟩

theorem iter_tracks (S f : String) (rs : List FieldList) :
    ∀ (ws : Worksheet) (e : CustomSerializeHeader),
    lookupHeader ws.serializer_state.headers (S, f) = some e →
    (∀ fs ∈ rs, fieldsAllScalar fs = true ∧ (keysOf fs).Nodup ∧
      (fieldData fs f).isSome = true) →
    iterOk S ws rs = true →
    lookupHeader (iterSerialize S ws rs).serializer_state.headers (S, f) =
      some { e with row := e.row + rs.length } ∧
    ∀ (k : Nat) (hk : k < rs.length) (d : CellData),
      fieldData (rs.get ⟨k, hk⟩) f = some d →
      (e.row + k, e.col, d, e.cell_format) ∈ (iterSerialize S ws rs).cells := by
  induction rs with
  | nil =>
    intro ws e hlk _ _
    constructor
    · rw [iterSerialize, hlk]
      rfl
    · intro k hk
      exact absurd hk (by simp)
  | cons fs rest ih =>
    intro ws e hlk hall hok
    rcases hw : serializeValue ws (.vStruct S fs) with ⟨ws1, res⟩
    simp only [iterOk] at hok
    rw [hw] at hok
    simp only [iterSerialize]
    rw [hw]
    cases res with
    | some err => exact absurd hok (by simp)
    | none =>
      have hok1 : iterOk S ws1 rest = true := hok
      have hs : (serializeValue ws (.vStruct S fs)).2 = none := by rw [hw]
      have hafs := hall fs (List.mem_cons_self _ _)
      rcases Option.isSome_iff_exists.mp hafs.2.2 with ⟨d0, hd0⟩
      have hstep := structCall_tracks S f fs ws e d0 hafs.1 hafs.2.1 hlk hd0 hs
      rw [hw] at hstep
      have hIH := ih ws1 { e with row := e.row + 1 } hstep.2
        (fun gs hgs => hall gs (List.mem_cons_of_mem _ hgs)) hok1
      constructor
      · rw [hIH.1]
        have harith : e.row + 1 + rest.length = e.row + (fs :: rest).length := by
          simp [List.length_cons]
          omega
        rw [harith]
      · intro k hk d hd
        cases k with
        | zero =>
          simp only [List.get] at hd
          have hdd : d = d0 := by
            rw [hd0] at hd
            exact (Option.some.injEq _ _ ▸ hd.symm)
          subst hdd
          rcases iter_cells_mono S rest ws1 with ⟨l, hl⟩
          rw [hl]
          exact List.mem_append_left _ hstep.1
        | succ j =>
          have hj : j < rest.length := Nat.lt_of_succ_lt_succ hk
          simp only [List.get] at hd
          have := hIH.2 j hj d hd
          have harith : e.row + 1 + j = e.row + (j + 1) := by omega
          rw [harith] at this
          exact this

theorem seq_structs_tracks (S f : String) (rs : List FieldList) :
    ∀ (ws : Worksheet) (e : CustomSerializeHeader),
    lookupHeader ws.serializer_state.headers (S, f) = some e →
    (∀ fs ∈ rs, fieldsAllScalar fs = true ∧ (keysOf fs).Nodup ∧
      (fieldData fs f).isSome = true) →
    (serializeSeqElements ws (structsOf S rs)).2 = none →
    lookupHeader
        (serializeSeqElements ws (structsOf S rs)).1.serializer_state.headers (S, f) =
      some { e with row := e.row + rs.length } ∧
    ∀ (k : Nat) (hk : k < rs.length) (d : CellData),
      fieldData (rs.get ⟨k, hk⟩) f = some d →
      (e.row + k, e.col, d, e.cell_format) ∈
        (serializeSeqElements ws (structsOf S rs)).1.cells := by
  induction rs with
  | nil =>
    intro ws e hlk _ _
    constructor
    · rw [structsOf, serializeSeqElements, hlk]
      rfl
    · intro k hk
      exact absurd hk (by simp)
  | cons fs rest ih =>
    intro ws e hlk hall hok
    rw [structsOf] at hok ⊢
    simp only [serializeSeqElements] at hok ⊢
    rcases hw : serializeValue ws (.vStruct S fs) with ⟨ws1, res⟩
    rw [hw] at hok
    cases res with
    | some err => exact absurd hok (by simp)
    | none =>
      have hok1 : (serializeSeqElements (bumpRow ws1) (structsOf S rest)).2 = none := hok
      have hs : (serializeValue ws (.vStruct S fs)).2 = none := by rw [hw]
      have hafs := hall fs (List.mem_cons_self _ _)
      rcases Option.isSome_iff_exists.mp hafs.2.2 with ⟨d0, hd0⟩
      have hstep := structCall_tracks S f fs ws e d0 hafs.1 hafs.2.1 hlk hd0 hs
      rw [hw] at hstep
      have hlk1 : lookupHeader (bumpRow ws1).serializer_state.headers (S, f) =
          some { e with row := e.row + 1 } := hstep.2
      have hIH := ih (bumpRow ws1) { e with row := e.row + 1 } hlk1
        (fun gs hgs => hall gs (List.mem_cons_of_mem _ hgs)) hok1
      constructor
      · show lookupHeader
          (serializeSeqElements (bumpRow ws1) (structsOf S rest)).1.serializer_state.headers
          (S, f) = _
        rw [hIH.1]
        have harith : e.row + 1 + rest.length = e.row + (fs :: rest).length := by
          simp [List.length_cons]
          omega
        rw [harith]
      · intro k hk d hd
        cases k with
        | zero =>
          simp only [List.get] at hd
          have hdd : d = d0 := by
            rw [hd0] at hd
            exact (Option.some.injEq _ _ ▸ hd.symm)
          subst hdd
          show (e.row + 0, e.col, d, e.cell_format) ∈
            (serializeSeqElements (bumpRow ws1) (structsOf S rest)).1.cells
          rcases serializeSeqElements_cells_mono (bumpRow ws1) (structsOf S rest)
            with ⟨l, hl⟩
          rw [hl]
          have hbc : (bumpRow ws1).cells = ws1.cells := rfl
          rw [hbc]
          exact List.mem_append_left _ hstep.1
        | succ j =>
          have hj : j < rest.length := Nat.lt_of_succ_lt_succ hk
          simp only [List.get] at hd
          have := hIH.2 j hj d hd
          have harith : e.row + 1 + j = e.row + (j + 1) := by omega
          rw [harith] at this
          exact this

/-- The worksheet after a resolved scalar write: cursor set from the entry,
entry row advanced, the write request appended. -/
def advancedWrite (ws : Worksheet) (e : CustomSerializeHeader) (d : CellData) :
    Worksheet :=
  { ws with
    serializer_state := resolvedState ws.serializer_state e
    cells := ws.cells ++ [(e.row, e.col, d, e.cell_format)] }

theorem stwc_full_ok (ws : Worksheet) (d : CellData) (e : CustomSerializeHeader)
    (h : lookupHeader ws.serializer_state.headers
      (ws.serializer_state.current_struct, ws.serializer_state.current_field) = some e)
    (hr : e.row < ROW_MAX) (hc : e.col < COL_MAX) (hlen : cellTooLong d = false) :
    serializeToWorksheetCell ws d = (advancedWrite ws e d, none) := by
  rw [stwc_known ws d e h, write_ok _ _ _ _ _ hr hc hlen]
  rfl

/-- A worksheet with field `a` of struct `S` registered on the last grid row
and the transient cursor standing on that pair (witness fixture). -/
def wsLastRow : Worksheet :=
  (serialize_headers_with_options Worksheet.new 1048575 0 "S"
    [CustomSerializeHeader.new "a"]).1

/-- The fixture with the transient cursor set on `(S, a)`. -/
def wsLastRowOn : Worksheet :=
  { wsLastRow with serializer_state :=
      { wsLastRow.serializer_state with current_struct := "S", current_field := "a" } }

/-- A worksheet with field `a` of struct `S` registered at (0, 0) (witness
fixture). -/
def wsTop : Worksheet :=
  (serialize_headers_with_options Worksheet.new 0 0 "S"
    [CustomSerializeHeader.new "a"]).1

/-- The fixture with the transient cursor set on `(S, a)`. -/
def wsTopOn : Worksheet :=
  { wsTop with serializer_state :=
      { wsTop.serializer_state with current_struct := "S", current_field := "a" } }

/-- C2 (amended): when a scalar is routed to the current (struct, field)
pair, the registry row counter of that field advances by exactly one as soon
as the lookup resolves — regardless of whether the subsequent grid write
succeeds or fails — and when the pair does not resolve, nothing is written,
no error is returned and no counter advances. -/
theorem c2_row_advance_rule (ws : Worksheet) (v : Value) (d : CellData)
    (hs : scalarData v = some d) :
    (∀ e : CustomSerializeHeader,
      lookupHeader ws.serializer_state.headers
        (ws.serializer_state.current_struct, ws.serializer_state.current_field) =
        some e →
      lookupHeader (serializeValue ws v).1.serializer_state.headers
        (ws.serializer_state.current_struct, ws.serializer_state.current_field) =
        some { e with row := e.row + 1 }) ∧
    (lookupHeader ws.serializer_state.headers
        (ws.serializer_state.current_struct, ws.serializer_state.current_field) =
        none →
      serializeValue ws v = (ws, none)) := by
  constructor
  · intro e he
    rw [serializeValue_scalar ws v d hs]
    exact stwc_known_entry ws d e he
  · intro he
    rw [serializeValue_scalar ws v d hs]
    exact stwc_unknown ws d he

/-- Witness for C2: the struct `S` with field `a` registered on the last grid
row; the scalar write fails with a bounds error yet the counter advances from
1048576 to 1048577. -/
theorem c2_row_advance_rule_witness :
    (scalarData (.vStr "x") = some (.str "x") ∧
      lookupHeader wsLastRowOn.serializer_state.headers ("S", "a") =
        some { field_name := "a", header_name := "a", header_format := none,
               cell_format := none, skip := false, hide_headers := false,
               row := 1048576, col := 0 } ∧
      (serializeValue wsLastRowOn (.vStr "x")).2 = some .RowColumnLimitError) ∧
    lookupHeader
      (serializeValue wsLastRowOn (.vStr "x")).1.serializer_state.headers ("S", "a") =
      some { field_name := "a", header_name := "a", header_format := none,
             cell_format := none, skip := false, hide_headers := false,
             row := 1048577, col := 0 } :=
  ⟨⟨by decide, by decide, by decide⟩,
    (c2_row_advance_rule wsLastRowOn (.vStr "x") (.str "x") (by decide)).1
      { field_name := "a", header_name := "a", header_format := none,
        cell_format := none, skip := false, hide_headers := false,
        row := 1048576, col := 0 } (by decide)⟩

/-- C7 (amended): for rows and columns inside the addressable grid,
registration with an empty struct name fails with the InvalidLayout parameter
error and the worksheet — hence the registry — is unchanged; outside the grid
the bounds check fires first and the bounds error is returned instead, still
with no insertion. -/
theorem c7_empty_struct_name_rejected (ws : Worksheet) (row col : Nat)
    (ds : List CustomSerializeHeader) :
    (check_dimensions_only row col = true →
      serialize_headers_with_options ws row col "" ds =
        (ws, some (.ParameterError "struct_name parameter cannot be blank"))) ∧
    (check_dimensions_only row col = false →
      serialize_headers_with_options ws row col "" ds =
        (ws, some .RowColumnLimitError)) := by
  constructor
  · intro h
    simp [serialize_headers_with_options, h]
  · intro h
    simp [serialize_headers_with_options, h]

/-- Witness for C7: an in-bounds registration with an empty struct name fails
with the parameter error and inserts nothing. -/
theorem c7_empty_struct_name_rejected_witness :
    check_dimensions_only 0 0 = true ∧
    serialize_headers_with_options Worksheet.new 0 0 "" [] =
      (Worksheet.new, some (.ParameterError "struct_name parameter cannot be blank")) :=
  ⟨by decide, (c7_empty_struct_name_rejected Worksheet.new 0 0 []).1 (by decide)⟩

/-- C8: when the current (struct, field) pair does not resolve in the header
registry, serializing a scalar performs no grid write, returns no error and
leaves the worksheet — including every registry row counter — unchanged: the
value is silently dropped. -/
theorem c8_unknown_field_drop (ws : Worksheet) (v : Value) (d : CellData)
    (hs : scalarData v = some d)
    (h : lookupHeader ws.serializer_state.headers
      (ws.serializer_state.current_struct, ws.serializer_state.current_field) =
      none) :
    Worksheet.serialize ws v = (ws, none) := by
  show serializeValue ws v = (ws, none)
  rw [serializeValue_scalar ws v d hs]
  exact stwc_unknown ws d h

/-- Witness for C8: a fresh worksheet drops a bare scalar without error. -/
theorem c8_unknown_field_drop_witness :
    (scalarData (.vInt 7) = some (.num 7) ∧
      lookupHeader Worksheet.new.serializer_state.headers
        (Worksheet.new.serializer_state.current_struct,
         Worksheet.new.serializer_state.current_field) = none) ∧
    Worksheet.serialize Worksheet.new (.vInt 7) = (Worksheet.new, none) :=
  ⟨⟨by decide, by decide⟩,
    c8_unknown_field_drop Worksheet.new (.vInt 7) (.num 7) (by decide) (by decide)⟩

/-- C9: an absent optional value, a unit and a unit struct are serialized
exactly like the empty-text scalar; for a field that resolves in the registry
to an in-bounds cell, the empty string is written to the field cell and the
field row counter advances by one, preserving row alignment with sibling
fields of the same record. -/
theorem c9_absent_option_advances (ws : Worksheet) (n : String)
    (e : CustomSerializeHeader)
    (h : lookupHeader ws.serializer_state.headers
      (ws.serializer_state.current_struct, ws.serializer_state.current_field) =
      some e)
    (hr : e.row < ROW_MAX) (hc : e.col < COL_MAX) :
    serializeValue ws .vNone = serializeValue ws (.vStr "") ∧
    serializeValue ws .vUnit = serializeValue ws .vNone ∧
    serializeValue ws (.vUnitStruct n) = serializeValue ws .vNone ∧
    serializeValue ws .vNone = (advancedWrite ws e (.str ""), none) ∧
    (advancedWrite ws e (.str "")).cells =
      ws.cells ++ [(e.row, e.col, .str "", e.cell_format)] ∧
    lookupHeader (serializeValue ws .vNone).1.serializer_state.headers
      (ws.serializer_state.current_struct, ws.serializer_state.current_field) =
      some { e with row := e.row + 1 } := by
  have hwc : serializeValue ws .vNone = serializeToWorksheetCell ws (.str "") := rfl
  refine ⟨rfl, rfl, rfl, ?_, rfl, ?_⟩
  · rw [hwc]
    exact stwc_full_ok ws (.str "") e h hr hc (by decide)
  · rw [hwc]
    exact stwc_known_entry ws (.str "") e h

/-- Witness for C9: with field `a` of `S` registered at (1, 0) and the cursor
on that pair, serializing an absent option writes the empty string there and
advances the row counter to 2. -/
theorem c9_absent_option_advances_witness :
    (lookupHeader wsTopOn.serializer_state.headers ("S", "a") =
      some { field_name := "a", header_name := "a", header_format := none,
             cell_format := none, skip := false, hide_headers := false,
             row := 1, col := 0 }) ∧
    lookupHeader
      (serializeValue wsTopOn .vNone).1.serializer_state.headers ("S", "a") =
      some { field_name := "a", header_name := "a", header_format := none,
             cell_format := none, skip := false, hide_headers := false,
             row := 2, col := 0 } :=
  ⟨by decide,
    (c9_absent_option_advances wsTopOn "U"
      { field_name := "a", header_name := "a", header_format := none,
        cell_format := none, skip := false, hide_headers := false,
        row := 1, col := 0 } (by decide) (by decide) (by decide)).2.2.2.2.2⟩

/-- C1 (amended): during layout registration each non-skipped descriptor at
position i of the full descriptor list is assigned column start_col + i —
a skipped descriptor still consumes its column slot, leaving a gap rather
than shifting later descriptors left — and skipped descriptors are never
inserted into the registry. -/
theorem c1_column_assignment (ws : Worksheet) (r c : Nat) (S : String)
    (ds : List CustomSerializeHeader) (i : Nat) (hi : i < ds.length)
    (hnd : (ds.map (fun h => h.field_name)).Nodup) :
    ((ds.get ⟨i, hi⟩).skip = false →
      (serialize_headers_with_options ws r c S ds).2 = none →
      lookupHeader
          (serialize_headers_with_options ws r c S ds).1.serializer_state.headers
          (S, (ds.get ⟨i, hi⟩).field_name) =
        some { ds.get ⟨i, hi⟩ with
                row := r + (if ds.any (fun h => h.hide_headers) then 0 else 1),
                col := c + i }) ∧
    ((ds.get ⟨i, hi⟩).skip = true →
      lookupHeader ws.serializer_state.headers (S, (ds.get ⟨i, hi⟩).field_name) =
        none →
      lookupHeader
          (serialize_headers_with_options ws r c S ds).1.serializer_state.headers
          (S, (ds.get ⟨i, hi⟩).field_name) = none) := by
  constructor
  · intro hskip hok
    exact reg_found ws r c S ds i hi hnd hskip hok
  · intro hskip hnone
    rw [reg_preserves ws r c S ds S _
      (Or.inr (skipped_name_not_inserted ds i hi hnd hskip))]
    exact hnone

/-- Descriptor list with a leading skipped descriptor (witness fixture). -/
def dsGap : List CustomSerializeHeader :=
  [{ CustomSerializeHeader.new "a" with skip := true }, CustomSerializeHeader.new "b"]

/-- Witness for C1: registering `a (skipped), b` at column 5 assigns `b`
column 6 (the skipped slot is consumed) and inserts no entry for `a`. -/
theorem c1_column_assignment_witness :
    ((dsGap.map (fun h => h.field_name)).Nodup ∧
      (serialize_headers_with_options Worksheet.new 0 5 "S" dsGap).2 = none) ∧
    lookupHeader
        (serialize_headers_with_options Worksheet.new 0 5 "S" dsGap).1.serializer_state.headers
        ("S", "b") =
      some { field_name := "b", header_name := "b", header_format := none,
             cell_format := none, skip := false, hide_headers := false,
             row := 1, col := 6 } ∧
    lookupHeader
        (serialize_headers_with_options Worksheet.new 0 5 "S" dsGap).1.serializer_state.headers
        ("S", "a") = none :=
  ⟨⟨by decide, by decide⟩,
    (c1_column_assignment Worksheet.new 0 5 "S" dsGap 1 (by decide) (by decide)).1
      (by decide) (by decide),
    (c1_column_assignment Worksheet.new 0 5 "S" dsGap 0 (by decide) (by decide)).2
      (by decide) (by decide)⟩

/-- C4 (amended): serialize() performs no reset of the transient traversal
state: the (struct, field) cursor left behind by an earlier call is used
as-is, so a later top-level serialize of a bare scalar resolves against the
leftover pair and is written to that field cell, advancing its counter. -/
theorem c4_transient_state_persists (ws : Worksheet) (v : Value) (d : CellData)
    (e : CustomSerializeHeader) (hs : scalarData v = some d)
    (he : lookupHeader ws.serializer_state.headers
      (ws.serializer_state.current_struct, ws.serializer_state.current_field) =
      some e)
    (hr : e.row < ROW_MAX) (hc : e.col < COL_MAX) (hlen : cellTooLong d = false) :
    Worksheet.serialize ws v = (advancedWrite ws e d, none) := by
  show serializeValue ws v = _
  rw [serializeValue_scalar ws v d hs]
  exact stwc_full_ok ws d e he hr hc hlen

/-- The worksheet left behind by serializing one record of `S` on the
registered fixture: the cursor still stands on `(S, a)` (witness fixture). -/
def wsAfterCall : Worksheet :=
  (serializeValue wsTop (.vStruct "S" (FieldList.cons "a" (.vStr "p") FieldList.nil))).1

/-- Witness for C4: after one record, the leftover `(S, a)` cursor routes a
top-level bare scalar into the cell of `a` at row 2. -/
theorem c4_transient_state_persists_witness :
    (wsAfterCall.serializer_state.current_struct = "S" ∧
      wsAfterCall.serializer_state.current_field = "a" ∧
      lookupHeader wsAfterCall.serializer_state.headers ("S", "a") =
        some { field_name := "a", header_name := "a", header_format := none,
               cell_format := none, skip := false, hide_headers := false,
               row := 2, col := 0 }) ∧
    Worksheet.serialize wsAfterCall (.vInt 7) =
      (advancedWrite wsAfterCall
        { field_name := "a", header_name := "a", header_format := none,
          cell_format := none, skip := false, hide_headers := false,
          row := 2, col := 0 } (.num 7), none) :=
  ⟨⟨by decide, by decide, by decide⟩,
    c4_transient_state_persists wsAfterCall (.vInt 7) (.num 7)
      { field_name := "a", header_name := "a", header_format := none,
        cell_format := none, skip := false, hide_headers := false,
        row := 2, col := 0 }
      (by decide) (by decide) (by decide) (by decide) (by decide)⟩

/-- C6 (amended): a registration call for struct name S overwrites exactly the
registry entries keyed by S and a non-skipped field name of the new
descriptor list; entries of S whose field is not re-registered persist
unchanged, and entries keyed by any other struct name are untouched. -/
theorem c6_reregistration_effect (ws : Worksheet) (r c : Nat) (S : String)
    (ds : List CustomSerializeHeader) :
    (∀ n f : String, (n ≠ S ∨ f ∉ nonSkippedNames ds) →
      lookupHeader
          (serialize_headers_with_options ws r c S ds).1.serializer_state.headers
          (n, f) =
        lookupHeader ws.serializer_state.headers (n, f)) ∧
    (∀ (i : Nat) (hi : i < ds.length),
      (ds.map (fun h => h.field_name)).Nodup →
      (ds.get ⟨i, hi⟩).skip = false →
      (serialize_headers_with_options ws r c S ds).2 = none →
      lookupHeader
          (serialize_headers_with_options ws r c S ds).1.serializer_state.headers
          (S, (ds.get ⟨i, hi⟩).field_name) =
        some { ds.get ⟨i, hi⟩ with
                row := r + (if ds.any (fun h => h.hide_headers) then 0 else 1),
                col := c + i }) :=
  ⟨fun n f h => reg_preserves ws r c S ds n f h,
   fun i hi hnd hskip hok => reg_found ws r c S ds i hi hnd hskip hok⟩

/-- A worksheet with fields `a, b` of `S` registered at (0, 0) (witness
fixture for re-registration). -/
def wsAB : Worksheet :=
  (serialize_headers_with_options Worksheet.new 0 0 "S"
    [CustomSerializeHeader.new "a", CustomSerializeHeader.new "b"]).1

/-- Witness for C6: re-registering `S` with only `a` at (5, 5) leaves the
stale `(S, b)` entry untouched while `(S, a)` moves to the new cell. -/
theorem c6_reregistration_effect_witness :
    ("b" ∉ nonSkippedNames [CustomSerializeHeader.new "a"] ∧
      (serialize_headers_with_options wsAB 5 5 "S"
        [CustomSerializeHeader.new "a"]).2 = none) ∧
    lookupHeader
        (serialize_headers_with_options wsAB 5 5 "S"
          [CustomSerializeHeader.new "a"]).1.serializer_state.headers ("S", "b") =
      lookupHeader wsAB.serializer_state.headers ("S", "b") ∧
    lookupHeader
        (serialize_headers_with_options wsAB 5 5 "S"
          [CustomSerializeHeader.new "a"]).1.serializer_state.headers ("S", "a") =
      some { field_name := "a", header_name := "a", header_format := none,
             cell_format := none, skip := false, hide_headers := false,
             row := 6, col := 5 } :=
  ⟨⟨by decide, by decide⟩,
    (c6_reregistration_effect wsAB 5 5 "S" [CustomSerializeHeader.new "a"]).1
      "S" "b" (Or.inr (by decide)),
    (c6_reregistration_effect wsAB 5 5 "S" [CustomSerializeHeader.new "a"]).2
      0 (by decide) (by decide) (by decide) (by decide)⟩

/-- C10 (amended): whenever the discovery pass leaves the struct name empty —
as it does for bare scalars, sequences, newtype wrappers and unit values —
both convenience header-registration forms return an error (the parameter
error in bounds, the bounds error out of bounds) and leave the worksheet,
hence the registry, unchanged.  Only a sample whose discovery traversal
reaches a struct (possibly under tuple nesting) can register. -/
theorem c10_non_struct_sample_rejected (ws : Worksheet) (row col : Nat)
    (v : Value) (fmt : Format)
    (hname : (headerSerializeValue { struct_name := "", field_names := [] } v).struct_name = "") :
    ((serialize_headers_with_format ws row col v fmt).1 = ws ∧
      ∃ e, (serialize_headers_with_format ws row col v fmt).2 = some e) ∧
    ((serialize_headers ws row col v).1 = ws ∧
      ∃ e, (serialize_headers ws row col v).2 = some e) ∧
    (∀ n : Int,
      (headerSerializeValue { struct_name := "", field_names := [] }
        (.vInt n)).struct_name = "") ∧
    (∀ vs : ValueList,
      (headerSerializeValue { struct_name := "", field_names := [] }
        (.vSeq vs)).struct_name = "") ∧
    (∀ (n : String) (x : Value),
      (headerSerializeValue { struct_name := "", field_names := [] }
        (.vNewtypeStruct n x)).struct_name = "") ∧
    (headerSerializeValue { struct_name := "", field_names := [] }
      .vUnit).struct_name = "" := by
  have hmain : ∀ fmt2 : Format,
      (serialize_headers_with_format ws row col v fmt2).1 = ws ∧
      ∃ e, (serialize_headers_with_format ws row col v fmt2).2 = some e := by
    intro fmt2
    simp only [serialize_headers_with_format]
    rw [hname]
    by_cases hd : check_dimensions_only row col
    · refine ⟨?_, ⟨.ParameterError "struct_name parameter cannot be blank", ?_⟩⟩ <;>
        simp [serialize_headers_with_options, hd]
    · rw [Bool.not_eq_true] at hd
      refine ⟨?_, ⟨.RowColumnLimitError, ?_⟩⟩ <;>
        simp [serialize_headers_with_options, hd]
  exact ⟨hmain fmt, hmain Format.default, fun n => rfl, fun vs => rfl,
    fun n x => rfl, rfl⟩

/-- Witness for C10: a bare integer sample is rejected by both convenience
forms and nothing is registered. -/
theorem c10_non_struct_sample_rejected_witness :
    ((headerSerializeValue { struct_name := "", field_names := [] }
        (.vInt 7)).struct_name = "") ∧
    (serialize_headers_with_format Worksheet.new 0 0 (.vInt 7) 3).1 =
      Worksheet.new :=
  ⟨by decide,
    (c10_non_struct_sample_rejected Worksheet.new 0 0 (.vInt 7) 3 (by decide)).1.1⟩

/-- C3 (amended): unit variants and newtype variants are dropped entirely —
no write, no state change, no error — but tuple variants and struct-like
variants serialize the variant name as a text scalar through the ordinary
registry write-or-drop rule (and then traverse their contents), so when the
ambient (struct, field) context resolves to an in-bounds cell the variant
name is written to the grid rather than the value being dropped. -/
theorem c3_enum_variant_behavior :
    (∀ (ws : Worksheet) (n v : String),
      serializeValue ws (.vUnitVariant n v) = (ws, none)) ∧
    (∀ (ws : Worksheet) (n v : String) (x : Value),
      serializeValue ws (.vNewtypeVariant n v x) = (ws, none)) ∧
    (∀ (ws : Worksheet) (n v : String) (fs : FieldList) (e : CustomSerializeHeader),
      lookupHeader ws.serializer_state.headers
        (ws.serializer_state.current_struct, ws.serializer_state.current_field) =
        some e →
      e.row < ROW_MAX → e.col < COL_MAX → cellTooLong (.str v) = false →
      (e.row, e.col, .str v, e.cell_format) ∈
        (serializeValue ws (.vStructVariant n v fs)).1.cells) ∧
    (∀ (ws : Worksheet) (n v : String) (vs : ValueList) (e : CustomSerializeHeader),
      lookupHeader ws.serializer_state.headers
        (ws.serializer_state.current_struct, ws.serializer_state.current_field) =
        some e →
      e.row < ROW_MAX → e.col < COL_MAX → cellTooLong (.str v) = false →
      (e.row, e.col, .str v, e.cell_format) ∈
        (serializeValue ws (.vTupleVariant n v vs)).1.cells) := by
  refine ⟨fun ws n v => rfl, fun ws n v x => rfl, ?_, ?_⟩
  · intro ws n v fs e he hr hc hlen
    simp only [serializeValue]
    rw [stwc_full_ok ws (.str v) e he hr hc hlen]
    show (e.row, e.col, CellData.str v, e.cell_format) ∈
      (serializeStructVariantFields (advancedWrite ws e (.str v)) fs).1.cells
    rcases serializeStructVariantFields_cells_mono (advancedWrite ws e (.str v)) fs
      with ⟨l, hl⟩
    rw [hl]
    have hcells : (advancedWrite ws e (.str v)).cells =
        ws.cells ++ [(e.row, e.col, .str v, e.cell_format)] := rfl
    rw [hcells]
    simp
  · intro ws n v vs e he hr hc hlen
    simp only [serializeValue]
    rw [stwc_full_ok ws (.str v) e he hr hc hlen]
    show (e.row, e.col, CellData.str v, e.cell_format) ∈
      (serializeTupleElements (advancedWrite ws e (.str v)) vs).1.cells
    rcases serializeTupleElements_cells_mono (advancedWrite ws e (.str v)) vs
      with ⟨l, hl⟩
    rw [hl]
    have hcells : (advancedWrite ws e (.str v)).cells =
        ws.cells ++ [(e.row, e.col, .str v, e.cell_format)] := rfl
    rw [hcells]
    simp

/-- Witness for C3: a unit variant is dropped on a fresh worksheet, while a
struct-like variant under the resolved cursor `(S, a)` writes its variant
name `V` into the cell of `a` at (1, 0). -/
theorem c3_enum_variant_behavior_witness :
    (serializeValue Worksheet.new (.vUnitVariant "E" "V") = (Worksheet.new, none)) ∧
    (lookupHeader wsTopOn.serializer_state.headers ("S", "a") =
      some { field_name := "a", header_name := "a", header_format := none,
             cell_format := none, skip := false, hide_headers := false,
             row := 1, col := 0 }) ∧
    (1, 0, CellData.str "V", none) ∈
      (serializeValue wsTopOn
        (.vStructVariant "E" "V" (FieldList.cons "x" (.vInt 1) FieldList.nil))).1.cells :=
  ⟨c3_enum_variant_behavior.1 Worksheet.new "E" "V",
   by decide,
   c3_enum_variant_behavior.2.2.1 wsTopOn "E" "V"
     (FieldList.cons "x" (.vInt 1) FieldList.nil)
     { field_name := "a", header_name := "a", header_format := none,
       cell_format := none, skip := false, hide_headers := false,
       row := 1, col := 0 }
     (by decide) (by decide) (by decide) (by decide)⟩

/-- C5: after registering struct S with visible headers at (r, c) on a fresh
worksheet, with descriptor i (non-skipped, field f) assigned column c + i and
first data row r + 1, serializing N records whose fields are all scalars and
which all carry f — either by N sequential serialize calls or by one
serialize call on the sequence of the N records — writes the value of f of
the k-th record (zero-based) at row r + 1 + k in column c + i, for every
k < N, provided the calls succeed. -/
theorem c5_row_advance_per_record (r c : Nat) (S : String)
    (ds : List CustomSerializeHeader) (i : Nat) (hi : i < ds.length)
    (rs : List FieldList) (k : Nat) (hk : k < rs.length) (d : CellData)
    (hnd : (ds.map (fun h => h.field_name)).Nodup)
    (hvis : ds.any (fun h => h.hide_headers) = false)
    (hskip : (ds.get ⟨i, hi⟩).skip = false)
    (hreg : (serialize_headers_with_options Worksheet.new r c S ds).2 = none)
    (hall : ∀ fs ∈ rs, fieldsAllScalar fs = true ∧ (keysOf fs).Nodup ∧
      (fieldData fs (ds.get ⟨i, hi⟩).field_name).isSome = true)
    (hd : fieldData (rs.get ⟨k, hk⟩) (ds.get ⟨i, hi⟩).field_name = some d) :
    (iterOk S (serialize_headers_with_options Worksheet.new r c S ds).1 rs = true →
      (r + 1 + k, c + i, d, (ds.get ⟨i, hi⟩).cell_format) ∈
        (iterSerialize S (serialize_headers_with_options Worksheet.new r c S ds).1
          rs).cells) ∧
    ((serializeValue (serialize_headers_with_options Worksheet.new r c S ds).1
        (.vSeq (structsOf S rs))).2 = none →
      (r + 1 + k, c + i, d, (ds.get ⟨i, hi⟩).cell_format) ∈
        (serializeValue (serialize_headers_with_options Worksheet.new r c S ds).1
          (.vSeq (structsOf S rs))).1.cells) := by
  have hentry := reg_found Worksheet.new r c S ds i hi hnd hskip hreg
  rw [hvis] at hentry
  simp only [Bool.false_eq_true, if_false] at hentry
  constructor
  · intro hok
    exact (iter_tracks S (ds.get ⟨i, hi⟩).field_name rs _ _ hentry hall hok).2 k hk d hd
  · intro hok
    simp only [serializeValue] at hok ⊢
    exact (seq_structs_tracks S (ds.get ⟨i, hi⟩).field_name rs _ _ hentry hall hok).2
      k hk d hd

/-- Two records of `S`, both carrying field `a` (witness fixture). -/
def rsW : List FieldList :=
  [FieldList.cons "a" (.vStr "x") FieldList.nil,
   FieldList.cons "a" (.vStr "y") FieldList.nil]

/-- Witness for C5: two records serialized after registering at (0, 0) land
on rows 1 and 2; the second record lands at (2, 0) in both the sequential and
the sequence form. -/
theorem c5_row_advance_per_record_witness :
    (iterOk "S" wsTop rsW = true ∧
      (serializeValue wsTop (.vSeq (structsOf "S" rsW))).2 = none) ∧
    (2, 0, CellData.str "y", (none : Option Format)) ∈
      (iterSerialize "S" wsTop rsW).cells ∧
    (2, 0, CellData.str "y", (none : Option Format)) ∈
      (serializeValue wsTop (.vSeq (structsOf "S" rsW))).1.cells :=
  ⟨⟨by decide, by decide⟩,
   (c5_row_advance_per_record 0 0 "S" [CustomSerializeHeader.new "a"] 0 (by decide)
      rsW 1 (by decide) (.str "y") (by decide) (by decide) (by decide) (by decide)
      (by decide) (by decide)).1 (by decide),
   (c5_row_advance_per_record 0 0 "S" [CustomSerializeHeader.new "a"] 0 (by decide)
      rsW 1 (by decide) (.str "y") (by decide) (by decide) (by decide) (by decide)
      (by decide) (by decide)).2 (by decide)⟩
